import Mathlib

/-!
# Verification of the mission workflow / settlement / pagination core

This development gives a shallow embedding in Lean 4 of the workflow core of
the repository: the mission lifecycle state machine (`src/lib/state/mission`),
the authorization gate (`src/lib/auth.ts`), the route handlers for
accept / submit / verify / payout / fund / create-mission, and the keyset
pagination codec (`src/lib/pagination.ts`).

Modelling conventions:
* machine integers are `Nat`/`Int` (database `serial` ids are `Nat`,
  `parseInt` results are `Int`);
* timestamps are `Nat` milliseconds (the value that flows through a JS
  `Date` and its ISO string has millisecond precision, and
  `new Date(d.toISOString())` is the identity at that granularity);
* fallible code returns `Except`/`Option`;
* external collaborators (identity verification, the Stripe processor,
  generated uuids, the clock) are passed in as explicit parameters, and the
  number of calls issued to the payment processor is returned explicitly;
* the relational store is a record of lists; a `select ... where ... limit 1`
  is `List.find?`, an `update ... where id = x` maps the row with that id.
-/

namespace Ekko

/-! ## Mission lifecycle state machine (src/lib/state/mission, part_010) -/

inductive MissionState
  | OPEN
  | ACCEPTED
  | SUBMITTED
  | VERIFIED
  | PAID
  | REJECTED
  deriving DecidableEq, Repr

namespace MissionState

/-- String name of a state, as interpolated into error messages. -/
def toStr : MissionState → String
  | .OPEN => "OPEN"
  | .ACCEPTED => "ACCEPTED"
  | .SUBMITTED => "SUBMITTED"
  | .VERIFIED => "VERIFIED"
  | .PAID => "PAID"
  | .REJECTED => "REJECTED"

end MissionState

instance : Fintype MissionState :=
  ⟨⟨{.OPEN, .ACCEPTED, .SUBMITTED, .VERIFIED, .PAID, .REJECTED}, by decide⟩,
   by intro x; cases x <;> decide⟩

/-- The transition table `allowedTransitions` of the source. -/
def allowedTransitions : MissionState → List MissionState
  | .OPEN => [.ACCEPTED]
  | .ACCEPTED => [.SUBMITTED]
  | .SUBMITTED => [.VERIFIED, .REJECTED]
  | .VERIFIED => [.PAID]
  | .PAID => []
  | .REJECTED => []

/-- `canTransition(from, to)`: false when `from === to`, else membership in
the transition table entry (every state has an entry, so the
`allowed !== undefined` check of the source is always true). -/
def canTransition (f t : MissionState) : Bool :=
  if f = t then false
  else (allowedTransitions f).contains t

/-- The error message thrown by `assertTransition`. -/
def invalidTransitionMsg (f t : MissionState) : String :=
  let allowed := allowedTransitions f
  let allowedStr :=
    if allowed.length > 0 then String.intercalate ", " (allowed.map MissionState.toStr)
    else "none (terminal state)"
  "Invalid transition from " ++ f.toStr ++ " to " ++ t.toStr ++
    ". Allowed transitions from " ++ f.toStr ++ ": " ++ allowedStr

/-- `assertTransition(from, to)`: throws (returns `.error`) with the
invalid-transition message iff `canTransition` is false. -/
def assertTransition (f t : MissionState) : Except String Unit :=
  if !canTransition f t then .error (invalidTransitionMsg f t)
  else .ok ()

instance exceptDecidableEq {ε α : Type} [DecidableEq ε] [DecidableEq α] :
    DecidableEq (Except ε α)
  | .error e, .error e' =>
    if h : e = e' then .isTrue (h ▸ rfl)
    else .isFalse (fun he => by cases he; exact h rfl)
  | .error _, .ok _ => .isFalse (fun he => by cases he)
  | .ok _, .error _ => .isFalse (fun he => by cases he)
  | .ok a, .ok a' =>
    if h : a = a' then .isTrue (h ▸ rfl)
    else .isFalse (fun he => by cases he; exact h rfl)

/-! ## Data model (src/lib/db/schema.ts) -/

inductive Role
  | ARTIST
  | CREATOR
  deriving DecidableEq, Repr

inductive PaymentStatus
  | PENDING
  | FUNDED
  | REFUNDED
  deriving DecidableEq, Repr

structure User where
  id : Nat
  auth_user_id : Option String
  role : Option Role
  stripe_account_id : Option String
  deriving DecidableEq, Repr

structure Campaign where
  id : Nat
  artist_id : Nat
  budget_cents : Int
  currency : String
  payment_intent_id : Option String
  payment_status : PaymentStatus
  created_at : Nat
  deriving DecidableEq, Repr

structure Mission where
  id : String
  campaign_id : Nat
  creator_id : Option String
  state : MissionState
  payout_cents : Int
  created_at : Nat
  updated_at : Nat
  deriving DecidableEq, Repr

structure Submission where
  id : String
  mission_id : String
  tiktok_url : String
  created_at : Nat
  deriving DecidableEq, Repr

/-- The relational store: one list per table. -/
structure Db where
  users : List User
  campaigns : List Campaign
  missions : List Mission
  submissions : List Submission
  deriving DecidableEq, Repr

/-- Process environment flags and values the handlers consult. -/
structure Env where
  database_url : Bool
  stripe_secret_key : Bool
  dev_artist_id : Option String
  deriving DecidableEq, Repr

/-! ## Digit parsing helpers (JS `parseInt(s, 10)`) -/

def isDigitChar (c : Char) : Bool :=
  48 ≤ c.toNat && c.toNat ≤ 57

def digitsVal (cs : List Char) : Nat :=
  cs.foldl (fun a c => a * 10 + (c.toNat - 48)) 0

def parseDigitsPrefix (cs : List Char) : Option Nat :=
  let ds := cs.takeWhile isDigitChar
  if ds.isEmpty then none else some (digitsVal ds)

/-- JS `parseInt(s, 10)`: skip leading whitespace, optional sign, then the
longest prefix of decimal digits; `NaN` (here `none`) when no digit. -/
def jsParseInt (s : String) : Option Int :=
  let cs := s.data.dropWhile (fun c => c = ' ' || c = '\t' || c = '\n' || c = '\r')
  match cs with
  | '-' :: rest => (parseDigitsPrefix rest).map (fun n => -(n : Int))
  | '+' :: rest => (parseDigitsPrefix rest).map (fun n => (n : Int))
  | rest => (parseDigitsPrefix rest).map (fun n => (n : Int))

/-! ## Authorization gate (src/lib/auth.ts)

`getAuthUserId` verifies the bearer token against the external identity
provider; it is opaque here, so every handler takes its result
(`authUserId : Option String`) as a parameter. -/

structure AppUser where
  id : Nat
  role : Role
  deriving DecidableEq, Repr

inductive AuthError
  | UNAUTHORIZED
  | FORBIDDEN
  deriving DecidableEq, Repr

/-- `select ... from users where id = artistId limit 1`. -/
def findUserById (db : Db) (i : Int) : Option User :=
  db.users.find? (fun u => (u.id : Int) == i)

/-- `select ... from users where role = 'ARTIST' limit 1`
(`userRoleEnum.enumValues[0]` is `"ARTIST"`). -/
def findFirstArtist (db : Db) : Option User :=
  db.users.find? (fun u => u.role == some Role.ARTIST)

/-- `getAppUser(authUserId, requiredRole)` from `src/lib/auth.ts`: for
ARTIST, resolve `DEV_ARTIST_ID` or fall back to the first ARTIST user;
for CREATOR, return the `{id: 0, role: "CREATOR"}` placeholder without a
store lookup.  The caller's id is unused on both paths, exactly as in the
source. -/
def getAppUser (env : Env) (db : Db) (_authUserId : String) (requiredRole : Role) :
    Option AppUser :=
  match requiredRole with
  | .ARTIST =>
    let viaDev : Option AppUser :=
      match env.dev_artist_id with
      | none => none
      | some s =>
        match jsParseInt s with
        | none => none
        | some artistId =>
          match findUserById db artistId with
          | some u => if u.role == some Role.ARTIST then some ⟨u.id, .ARTIST⟩ else none
          | none => none
    match viaDev with
    | some r => some r
    | none =>
      match findFirstArtist db with
      | some u => if u.role == some Role.ARTIST then some ⟨u.id, .ARTIST⟩ else none
      | none => none
  | .CREATOR => some ⟨0, .CREATOR⟩

/-- `requireAuth` composed with `getAppUser`: `requireRole` from
`src/lib/auth.ts`.  Throws `UNAUTHORIZED` when the credential does not
verify, `FORBIDDEN` when `!appUser || appUser.role !== requiredRole`. -/
def requireRole (env : Env) (db : Db) (authUserId : Option String)
    (requiredRole : Role) : Except AuthError (String × AppUser) :=
  match authUserId with
  | none => .error .UNAUTHORIZED
  | some uid =>
    match getAppUser env db uid requiredRole with
    | none => .error .FORBIDDEN
    | some appUser =>
      if appUser.role ≠ requiredRole then .error .FORBIDDEN
      else .ok (uid, appUser)

/-! ## Store access helpers -/

/-- `select ... from missions where id = missionId limit 1`. -/
def findMission (db : Db) (missionId : String) : Option Mission :=
  db.missions.find? (fun m => m.id == missionId)

/-- `select ... from campaigns where id = cid limit 1` (by stored id). -/
def findCampaign (db : Db) (cid : Nat) : Option Campaign :=
  db.campaigns.find? (fun c => c.id == cid)

/-- `select ... from campaigns where id = cid limit 1` (by parsed id). -/
def findCampaignInt (db : Db) (cid : Int) : Option Campaign :=
  db.campaigns.find? (fun c => (c.id : Int) == cid)

/-- `select ... from users where auth_user_id = aid limit 1`. -/
def findUserByAuthId (db : Db) (aid : String) : Option User :=
  db.users.find? (fun u => u.auth_user_id == some aid)

/-- `update missions set ... where id = missionId`. -/
def updateMissionRow (db : Db) (missionId : String) (f : Mission → Mission) : Db :=
  { db with missions := db.missions.map (fun m => if m.id == missionId then f m else m) }

/-- `update campaigns set ... where id = cid`. -/
def updateCampaignRow (db : Db) (cid : Int) (f : Campaign → Campaign) : Db :=
  { db with campaigns := db.campaigns.map (fun c => if (c.id : Int) == cid then f c else c) }

/-! ## POST /api/missions/[missionId]/accept -/

inductive AcceptRes
  | envError
  | unauthorized
  | forbiddenRole
  | notFound
  | notOpen (st : MissionState)
  | invalidTransition (msg : String)
  | ok (m : Mission)
  deriving DecidableEq, Repr

/-- The accept handler.  `authUserId` is the (opaque) result of bearer-token
verification, `now` the clock value used for `updated_at`. -/
def acceptPOST (env : Env) (db : Db) (authUserId : Option String)
    (missionId : String) (now : Nat) : AcceptRes × Db :=
  if !env.database_url then (.envError, db)
  else
    match requireRole env db authUserId .CREATOR with
    | .error .UNAUTHORIZED => (.unauthorized, db)
    | .error .FORBIDDEN => (.forbiddenRole, db)
    | .ok (creatorId, _appUser) =>
      match findMission db missionId with
      | none => (.notFound, db)
      | some mission =>
        if mission.state ≠ .OPEN then (.notOpen mission.state, db)
        else
          match assertTransition mission.state .ACCEPTED with
          | .error msg => (.invalidTransition msg, db)
          | .ok () =>
            let updated := { mission with
              creator_id := some creatorId, state := .ACCEPTED, updated_at := now }
            (.ok updated,
             updateMissionRow db missionId (fun m =>
               { m with creator_id := some creatorId, state := .ACCEPTED, updated_at := now }))

/-! ## POST /api/missions/[missionId]/submit (part_002) -/

inductive SubmitRes
  | envError
  | validationError
  | unauthorized
  | forbiddenRole
  | notFound
  | notAccepted (st : MissionState)
  | ownershipMismatch
  | invalidTransition (msg : String)
  | ok (m : Mission) (s : Submission)
  deriving DecidableEq, Repr

/-- The submission upsert: insert keyed by `mission_id`, and on conflict
overwrite `tiktok_url` in place.  Returns the `returning()` row. -/
def upsertSubmission (db : Db) (missionId url newSubId : String) (now : Nat) :
    Submission × Db :=
  match db.submissions.find? (fun s => s.mission_id == missionId) with
  | some s0 =>
    (⟨s0.id, s0.mission_id, url, s0.created_at⟩,
     { db with submissions := db.submissions.map (fun s =>
         if s.mission_id == missionId then { s with tiktok_url := url } else s) })
  | none =>
    let s : Submission := ⟨newSubId, missionId, url, now⟩
    (s, { db with submissions := db.submissions ++ [s] })

/-- The submit handler.  `urlValid` is the outcome of the zod `.url()`
check on the request body (performed before authentication, as in the
source); `newSubId` is the uuid the store would generate for an insert. -/
def submitPOST (env : Env) (db : Db) (authUserId : Option String)
    (missionId : String) (tiktokUrl : String) (urlValid : Bool)
    (newSubId : String) (now : Nat) : SubmitRes × Db :=
  if !env.database_url then (.envError, db)
  else if !urlValid then (.validationError, db)
  else
    match requireRole env db authUserId .CREATOR with
    | .error .UNAUTHORIZED => (.unauthorized, db)
    | .error .FORBIDDEN => (.forbiddenRole, db)
    | .ok (creatorId, _appUser) =>
      match findMission db missionId with
      | none => (.notFound, db)
      | some mission =>
        if mission.state ≠ .ACCEPTED then (.notAccepted mission.state, db)
        else if mission.creator_id ≠ some creatorId then (.ownershipMismatch, db)
        else
          match assertTransition mission.state .SUBMITTED with
          | .error msg => (.invalidTransition msg, db)
          | .ok () =>
            let su := upsertSubmission db missionId tiktokUrl newSubId now
            let updated := { mission with state := .SUBMITTED, updated_at := now }
            (.ok updated su.1,
             updateMissionRow su.2 missionId (fun m =>
               { m with state := .SUBMITTED, updated_at := now }))

/-! ## POST /api/missions/[missionId]/verify -/

inductive VerifyRes
  | envError
  | unauthorized
  | forbiddenRole
  | missionNotFound
  | campaignNotFound
  | forbiddenOwnership
  | notSubmitted (st : MissionState)
  | invalidTransition (msg : String)
  | ok (m : Mission)
  deriving DecidableEq, Repr

/-- The verify handler (SUBMITTED → VERIFIED, campaign owner only). -/
def verifyPOST (env : Env) (db : Db) (authUserId : Option String)
    (missionId : String) (now : Nat) : VerifyRes × Db :=
  if !env.database_url then (.envError, db)
  else
    match requireRole env db authUserId .ARTIST with
    | .error .UNAUTHORIZED => (.unauthorized, db)
    | .error .FORBIDDEN => (.forbiddenRole, db)
    | .ok (_uid, appUser) =>
      match findMission db missionId with
      | none => (.missionNotFound, db)
      | some mission =>
        match findCampaign db mission.campaign_id with
        | none => (.campaignNotFound, db)
        | some campaign =>
          if campaign.artist_id ≠ appUser.id then (.forbiddenOwnership, db)
          else if mission.state ≠ .SUBMITTED then (.notSubmitted mission.state, db)
          else
            match assertTransition mission.state .VERIFIED with
            | .error msg => (.invalidTransition msg, db)
            | .ok () =>
              let updated := { mission with state := .VERIFIED, updated_at := now }
              (.ok updated,
               updateMissionRow db missionId (fun m =>
                 { m with state := .VERIFIED, updated_at := now }))

/-! ## POST /api/missions/[missionId]/payout (part_003, Stripe-transfer version) -/

/-- Outcome of the external transfer call: a caught Stripe error carries
`isStripeError = true` and the processor's message; other exceptions
rethrow (`isStripeError = false`). -/
structure StripeFailure where
  isStripeError : Bool
  message : String
  deriving DecidableEq, Repr

structure Transfer where
  id : String
  deriving DecidableEq, Repr

inductive PayoutRes
  | envError
  | unauthorized
  | forbiddenRole
  | missionNotFound
  | campaignNotFound
  | forbiddenOwnership
  | fundingRequired
  | notVerified (st : MissionState)
  | noCreatorAssigned
  | creatorNotFound
  | payoutAccountMissing
  | invalidTransition (msg : String)
  | paymentFailed (msg : String)
  | internalError
  | ok (m : Mission) (amountCents : Int) (currency : String) (transferId : String)
  deriving DecidableEq, Repr

/-- The payout handler.  `stripeTransfer` is the outcome the external
processor would produce if invoked; the third component of the result
counts the transfer calls actually issued. -/
def payoutPOST (env : Env) (db : Db) (authUserId : Option String)
    (missionId : String) (stripeTransfer : Except StripeFailure Transfer)
    (now : Nat) : PayoutRes × Db × Nat :=
  if !env.database_url then (.envError, db, 0)
  else if !env.stripe_secret_key then (.envError, db, 0)
  else
    match requireRole env db authUserId .ARTIST with
    | .error .UNAUTHORIZED => (.unauthorized, db, 0)
    | .error .FORBIDDEN => (.forbiddenRole, db, 0)
    | .ok (_uid, appUser) =>
      match findMission db missionId with
      | none => (.missionNotFound, db, 0)
      | some mission =>
        match findCampaign db mission.campaign_id with
        | none => (.campaignNotFound, db, 0)
        | some campaign =>
          if campaign.artist_id ≠ appUser.id then (.forbiddenOwnership, db, 0)
          else if campaign.payment_status ≠ .FUNDED then (.fundingRequired, db, 0)
          else if mission.state ≠ .VERIFIED then (.notVerified mission.state, db, 0)
          else
            match mission.creator_id with
            | none => (.noCreatorAssigned, db, 0)
            | some creatorAuthId =>
              match findUserByAuthId db creatorAuthId with
              | none => (.creatorNotFound, db, 0)
              | some creator =>
                match creator.stripe_account_id with
                | none => (.payoutAccountMissing, db, 0)
                | some _acct =>
                  match assertTransition mission.state .PAID with
                  | .error msg => (.invalidTransition msg, db, 0)
                  | .ok () =>
                    match stripeTransfer with
                    | .error f =>
                      if f.isStripeError then
                        (.paymentFailed ("Payment failed: " ++ f.message), db, 1)
                      else (.internalError, db, 1)
                    | .ok transfer =>
                      let updated := { mission with state := .PAID, updated_at := now }
                      (.ok updated mission.payout_cents campaign.currency transfer.id,
                       updateMissionRow db missionId (fun m =>
                         { m with state := .PAID, updated_at := now }),
                       1)

/-! ## POST /api/campaigns/[campaignId]/fund (part_005) -/

/-- What `stripe.paymentIntents.retrieve` would return if invoked. -/
structure PaymentIntentInfo where
  id : String
  status : String
  client_secret : String
  deriving DecidableEq, Repr

inductive FundRes
  | envError
  | invalidCampaignId
  | unauthorized
  | forbiddenRole
  | notFound
  | forbiddenOwnership
  | alreadyFunded
  | noPaymentIntent
  | paymentNotConfirmed (status : String)
  | ok (c : Campaign)
  deriving DecidableEq, Repr

/-- The funding-confirmation handler.  The third component of the result
counts the processor (`paymentIntents.retrieve`) calls issued. -/
def fundPOST (env : Env) (db : Db) (authUserId : Option String)
    (campaignIdParam : String) (stripeRetrieve : PaymentIntentInfo) :
    FundRes × Db × Nat :=
  if !env.database_url then (.envError, db, 0)
  else if !env.stripe_secret_key then (.envError, db, 0)
  else
    match jsParseInt campaignIdParam with
    | none => (.invalidCampaignId, db, 0)
    | some campaignId =>
      match requireRole env db authUserId .ARTIST with
      | .error .UNAUTHORIZED => (.unauthorized, db, 0)
      | .error .FORBIDDEN => (.forbiddenRole, db, 0)
      | .ok (_uid, appUser) =>
        match findCampaignInt db campaignId with
        | none => (.notFound, db, 0)
        | some campaign =>
          if campaign.artist_id ≠ appUser.id then (.forbiddenOwnership, db, 0)
          else if campaign.payment_status = .FUNDED then (.alreadyFunded, db, 0)
          else
            match campaign.payment_intent_id with
            | none => (.noPaymentIntent, db, 0)
            | some _pi =>
              if stripeRetrieve.status ≠ "succeeded" then
                (.paymentNotConfirmed stripeRetrieve.status, db, 1)
              else
                let updated := { campaign with payment_status := .FUNDED }
                (.ok updated,
                 updateCampaignRow db campaignId (fun c =>
                   { c with payment_status := .FUNDED }),
                 1)

/-! ## POST /api/campaigns/[campaignId]/missions (part_004, create mission) -/

inductive CreateMissionRes
  | unauthorized
  | forbiddenRole
  | envError
  | invalidCampaignId
  | validationError
  | notFound
  | forbiddenOwnership
  | ok (m : Mission)
  deriving DecidableEq, Repr

/-- The create-mission handler.  `payoutCents` is the body value (zod
requires an integer ≥ 100); `newMissionId` is the uuid the store would
generate. -/
def createMissionPOST (env : Env) (db : Db) (authUserId : Option String)
    (campaignIdParam : String) (payoutCents : Int) (newMissionId : String)
    (now : Nat) : CreateMissionRes × Db :=
  match requireRole env db authUserId .ARTIST with
  | .error .UNAUTHORIZED => (.unauthorized, db)
  | .error .FORBIDDEN => (.forbiddenRole, db)
  | .ok (_uid, appUser) =>
    if !env.database_url then (.envError, db)
    else
      match jsParseInt campaignIdParam with
      | none => (.invalidCampaignId, db)
      | some campaignId =>
        if payoutCents < 100 then (.validationError, db)
        else
          match findCampaignInt db campaignId with
          | none => (.notFound, db)
          | some campaign =>
            if campaign.artist_id ≠ appUser.id then (.forbiddenOwnership, db)
            else
              let m : Mission :=
                ⟨newMissionId, campaign.id, none, .OPEN, payoutCents, now, now⟩
              (.ok m, { db with missions := db.missions ++ [m] })

/-! ## Reachability of store states (for the assignee invariant) -/

/-- One mutating request against the store.  The create step carries the
uuid primary-key constraint: the generated mission id is fresh. -/
inductive DbStep : Db → Db → Prop
  | create (env : Env) (authUserId : Option String) (cidP : String)
      (payout : Int) (mid : String) (now : Nat) {db : Db}
      (hfresh : ∀ m ∈ db.missions, m.id ≠ mid) :
      DbStep db (createMissionPOST env db authUserId cidP payout mid now).2
  | accept (env : Env) (authUserId : Option String) (mid : String) (now : Nat)
      {db : Db} : DbStep db (acceptPOST env db authUserId mid now).2
  | submit (env : Env) (authUserId : Option String) (mid url : String)
      (urlValid : Bool) (sid : String) (now : Nat) {db : Db} :
      DbStep db (submitPOST env db authUserId mid url urlValid sid now).2
  | verify (env : Env) (authUserId : Option String) (mid : String) (now : Nat)
      {db : Db} : DbStep db (verifyPOST env db authUserId mid now).2
  | payout (env : Env) (authUserId : Option String) (mid : String)
      (tr : Except StripeFailure Transfer) (now : Nat) {db : Db} :
      DbStep db (payoutPOST env db authUserId mid tr now).2.1
  | fund (env : Env) (authUserId : Option String) (cidP : String)
      (pi : PaymentIntentInfo) {db : Db} :
      DbStep db (fundPOST env db authUserId cidP pi).2.1

/-- Stores reachable from any store with no missions yet. -/
inductive ReachableDb : Db → Prop
  | init (users : List User) (campaigns : List Campaign)
      (submissions : List Submission) : ReachableDb ⟨users, campaigns, [], submissions⟩
  | step {db db' : Db} : ReachableDb db → DbStep db db' → ReachableDb db'

/-- The assignee invariant of one mission row. -/
def missionInv (m : Mission) : Prop :=
  m.creator_id ≠ none ↔ m.state ≠ .OPEN

/-- Well-formedness carried through the induction: distinct primary keys
and the assignee invariant on every row. -/
def dbInv (db : Db) : Prop :=
  (db.missions.map Mission.id).Nodup ∧ ∀ m ∈ db.missions, missionInv m

/-! ## Keyset pagination (src/lib/pagination.ts)

A listed row is its key pair `(created_at, id)`: `created_at` is a `Nat`
millisecond timestamp (the value a JS `Date` holds; `toISOString` followed
by `new Date` is the identity at that granularity), and the tiebreak id is
any linearly ordered type (`Nat` for campaign serials, ordered strings for
mission uuids). -/

inductive SortOption
  | created_at_desc
  | created_at_asc
  | id_desc
  | id_asc
  deriving DecidableEq, Repr

structure PRow (α : Type) where
  created_at : Nat
  id : α
  deriving DecidableEq, Repr

/-- `buildCursorWhere(sort, cursor, ...)`: the strict "strictly past the
cursor position" predicate, verbatim from the four cases of the source. -/
def buildCursorWhere {α : Type} [LinearOrder α] [DecidableEq α]
    (sort : SortOption) (c r : PRow α) : Bool :=
  match sort with
  | .created_at_desc =>
    decide (r.created_at < c.created_at) ||
      (decide (r.created_at = c.created_at) && decide (r.id < c.id))
  | .created_at_asc =>
    decide (r.created_at > c.created_at) ||
      (decide (r.created_at = c.created_at) && decide (r.id > c.id))
  | .id_desc =>
    decide (r.id < c.id) ||
      (decide (r.id = c.id) && decide (r.created_at < c.created_at))
  | .id_asc =>
    decide (r.id > c.id) ||
      (decide (r.id = c.id) && decide (r.created_at > c.created_at))

/-- The strict "a is ordered before b" relation induced by
`buildOrderBy(sort, ...)` (primary column first, tiebreak second, each
`desc`/`asc` as listed in the source). -/
def orderByBefore {α : Type} [LinearOrder α] [DecidableEq α]
    (sort : SortOption) (a b : PRow α) : Bool :=
  match sort with
  | .created_at_desc =>
    decide (b.created_at < a.created_at) ||
      (decide (b.created_at = a.created_at) && decide (b.id < a.id))
  | .created_at_asc =>
    decide (b.created_at > a.created_at) ||
      (decide (b.created_at = a.created_at) && decide (b.id > a.id))
  | .id_desc =>
    decide (b.id < a.id) ||
      (decide (b.id = a.id) && decide (b.created_at < a.created_at))
  | .id_asc =>
    decide (b.id > a.id) ||
      (decide (b.id = a.id) && decide (b.created_at > a.created_at))

/-- A snapshot as the store returns it under `buildOrderBy sort`: every
later row is strictly past every earlier one.  Key pairs are distinct
because the tiebreak id is a primary key. -/
def sortedBy {α : Type} [LinearOrder α] [DecidableEq α]
    (sort : SortOption) (l : List (PRow α)) : Prop :=
  l.Pairwise (fun a b => orderByBefore sort a b = true)

/-- The store query of the list route: rows past the cursor (when one is
present), in `buildOrderBy` order, `limit + 1` of them. -/
def pageQuery {α : Type} [LinearOrder α] [DecidableEq α] (sort : SortOption)
    (l : List (PRow α)) (cursor : Option (PRow α)) (limit : Nat) :
    List (PRow α) :=
  let filtered :=
    match cursor with
    | none => l
    | some c => l.filter (fun r => buildCursorWhere sort c r)
  filtered.take (limit + 1)

/-- One page of the GET handler: drop the probe row when `limit + 1` came
back, and emit `next_cursor` from the last returned row's
`(created_at, id)` — which is that row itself in this model (the emitted
token is `encodeCursor` of the pair; its decode is proved elsewhere to be
the exact pair). -/
def routePage {α : Type} [LinearOrder α] [DecidableEq α] (sort : SortOption)
    (l : List (PRow α)) (cursor : Option (PRow α)) (limit : Nat) :
    List (PRow α) × Option (PRow α) :=
  let results := pageQuery sort l cursor limit
  let hasNextPage := decide (results.length > limit)
  let data := if hasNextPage then results.take limit else results
  let nextCursor : Option (PRow α) :=
    if hasNextPage && !data.isEmpty then data.getLast? else none
  (data, nextCursor)

/-- The client loop of the pagination-completeness property: request a
page, and while a `next_cursor` comes back, follow it.  `fuel` bounds the
number of requests. -/
def collectPages {α : Type} [LinearOrder α] [DecidableEq α] (sort : SortOption)
    (l : List (PRow α)) (limit : Nat) : Option (PRow α) → Nat → List (PRow α)
  | _, 0 => []
  | cursor, fuel + 1 =>
    let p := routePage sort l cursor limit
    match p.2 with
    | none => p.1
    | some c => p.1 ++ collectPages sort l limit (some c) fuel

/-! ## Cursor codec (encodeCursor / the cursor branch of parsePaginationParams)

`encodeCursor` is `base64(JSON.stringify(cursor))` over the UTF-8 bytes of
the JSON text; decoding is Node's lenient base64 (non-alphabet characters
ignored), lossy UTF-8 (`Buffer.toString("utf-8")`, invalid sequences
replaced), `JSON.parse`, then the two `typeof` shape checks.  JSON numbers
are modelled as integers (the ids that flow through the codec are database
serials, exactly representable). -/

inductive CursorId
  | str (s : String)
  | num (n : Int)
  deriving DecidableEq, Repr

structure Cursor where
  created_at : String
  id : CursorId
  deriving DecidableEq, Repr

/-- Decimal digits of a natural number, most significant first. -/
def natDigits (n : Nat) : List Char :=
  if h : n < 10 then [Char.ofNat (48 + n)]
  else natDigits (n / 10) ++ [Char.ofNat (48 + n % 10)]
  termination_by n
  decreasing_by exact Nat.div_lt_self (by omega) (by omega)

/-- `JSON.stringify` of an integer. -/
def intChars (n : Int) : List Char :=
  if n < 0 then '-' :: natDigits n.natAbs else natDigits n.natAbs

def hexDigitChar (n : Nat) : Char :=
  Char.ofNat (if n < 10 then 48 + n else 87 + n)

/-- `JSON.stringify` string escaping: quote, backslash, and control
characters (named escapes for 8, 9, 10, 12, 13, `\u00XX` otherwise). -/
def escapeChar (c : Char) : List Char :=
  if c = '"' then ['\\', '"']
  else if c = '\\' then ['\\', '\\']
  else if c.toNat < 32 then
    if c.toNat = 8 then ['\\', 'b']
    else if c.toNat = 9 then ['\\', 't']
    else if c.toNat = 10 then ['\\', 'n']
    else if c.toNat = 12 then ['\\', 'f']
    else if c.toNat = 13 then ['\\', 'r']
    else ['\\', 'u', '0', '0', hexDigitChar (c.toNat / 16), hexDigitChar (c.toNat % 16)]
  else [c]

def escapeString (s : String) : List Char :=
  s.data.flatMap escapeChar

def idJsonChars : CursorId → List Char
  | .str s => '"' :: (escapeString s ++ ['"'])
  | .num n => intChars n

/-- `JSON.stringify({created_at: ..., id: ...})` (insertion order of the
object literal: `created_at` first, `id` second, no whitespace). -/
def cursorJsonChars (c : Cursor) : List Char :=
  "\x7b\x22created_at\x22:\x22".data ++ escapeString c.created_at ++
    "\x22,\x22id\x22:".data ++ idJsonChars c.id ++ "\x7d".data

/-! ### UTF-8 -/

def utf8EncodeChar (c : Char) : List Nat :=
  let n := c.toNat
  if n < 128 then [n]
  else if n < 2048 then [192 + n / 64, 128 + n % 64]
  else if n < 65536 then [224 + n / 4096, 128 + n / 64 % 64, 128 + n % 64]
  else [240 + n / 262144, 128 + n / 4096 % 64, 128 + n / 64 % 64, 128 + n % 64]

def utf8Encode (cs : List Char) : List Nat :=
  cs.flatMap utf8EncodeChar

def replChar : Char := Char.ofNat 65533

def isCont (b : Nat) : Bool := 128 ≤ b && b < 192

/-- Lossy UTF-8 decoding (`Buffer.toString("utf-8")`): invalid sequences
become U+FFFD.  The replacement policy on malformed input is simplified
(one replacement character per rejected lead byte or truncated tail). -/
def utf8DecodeAux : Nat → List Nat → List Char
  | 0, _ => []
  | _ + 1, [] => []
  | fuel + 1, b :: rest =>
    if b < 128 then Char.ofNat b :: utf8DecodeAux fuel rest
    else if 194 ≤ b && b ≤ 223 then
      match rest with
      | b2 :: rest2 =>
        if isCont b2 then
          Char.ofNat ((b - 192) * 64 + (b2 - 128)) :: utf8DecodeAux fuel rest2
        else replChar :: utf8DecodeAux fuel rest
      | [] => [replChar]
    else if 224 ≤ b && b ≤ 239 then
      match rest with
      | b2 :: b3 :: rest3 =>
        if isCont b2 && isCont b3 then
          let n := (b - 224) * 4096 + (b2 - 128) * 64 + (b3 - 128)
          (if 2048 ≤ n && !(55296 ≤ n && n ≤ 57343) then Char.ofNat n else replChar) ::
            utf8DecodeAux fuel rest3
        else replChar :: utf8DecodeAux fuel rest
      | _ => [replChar]
    else if 240 ≤ b && b ≤ 244 then
      match rest with
      | b2 :: b3 :: b4 :: rest4 =>
        if isCont b2 && isCont b3 && isCont b4 then
          let n := (b - 240) * 262144 + (b2 - 128) * 4096 + (b3 - 128) * 64 + (b4 - 128)
          (if 65536 ≤ n && n ≤ 1114111 then Char.ofNat n else replChar) ::
            utf8DecodeAux fuel rest4
        else replChar :: utf8DecodeAux fuel rest
      | _ => [replChar]
    else replChar :: utf8DecodeAux fuel rest

def utf8DecodeLossy (bs : List Nat) : List Char :=
  utf8DecodeAux bs.length bs

/-! ### Base64 -/

def b64Char (n : Nat) : Char :=
  if n < 26 then Char.ofNat (65 + n)
  else if n < 52 then Char.ofNat (97 + (n - 26))
  else if n < 62 then Char.ofNat (48 + (n - 52))
  else if n = 62 then '+'
  else '/'

def b64Val (c : Char) : Option Nat :=
  if 65 ≤ c.toNat && c.toNat ≤ 90 then some (c.toNat - 65)
  else if 97 ≤ c.toNat && c.toNat ≤ 122 then some (c.toNat - 97 + 26)
  else if 48 ≤ c.toNat && c.toNat ≤ 57 then some (c.toNat - 48 + 52)
  else if c = '+' then some 62
  else if c = '/' then some 63
  else none

def base64EncodeChars : List Nat → List Char
  | [] => []
  | [x] => [b64Char (x / 4), b64Char (x % 4 * 16), '=', '=']
  | [x, y] => [b64Char (x / 4), b64Char (x % 4 * 16 + y / 16), b64Char (y % 16 * 4), '=']
  | x :: y :: z :: rest =>
    b64Char (x / 4) :: b64Char (x % 4 * 16 + y / 16) :: b64Char (y % 16 * 4 + z / 64) ::
      b64Char (z % 64) :: base64EncodeChars rest

/-- Node's `Buffer.from(s, "base64")` is lenient: characters outside the
alphabet (including `=` and whitespace) are skipped, and a trailing group
of fewer than four sextets contributes its complete leading bytes. -/
def b64BytesOf : List Nat → List Nat
  | a :: b :: c :: d :: rest =>
    (a * 4 + b / 16) :: (b % 16 * 16 + c / 4) :: (c % 4 * 64 + d) :: b64BytesOf rest
  | [a, b] => [a * 4 + b / 16]
  | [a, b, c] => [a * 4 + b / 16, b % 16 * 16 + c / 4]
  | _ => []

def base64DecodeLenient (s : String) : List Nat :=
  b64BytesOf (s.data.filterMap b64Val)

/-- `encodeCursor` from `src/lib/pagination.ts`. -/
def encodeCursor (c : Cursor) : String :=
  ⟨base64EncodeChars (utf8Encode (cursorJsonChars c))⟩

/-! ### JSON values and parsing (`JSON.parse`) -/

inductive JVal
  | jnull
  | jbool (b : Bool)
  | jnum (n : Int)
  | jstr (s : String)
  | jarr (xs : List JVal)
  | jobj (fields : List (String × JVal))

def jsonWs (c : Char) : Bool :=
  c = ' ' || c = '\t' || c = '\n' || c = '\r'

def skipWs (cs : List Char) : List Char :=
  cs.dropWhile jsonWs

def hexVal (c : Char) : Option Nat :=
  if 48 ≤ c.toNat && c.toNat ≤ 57 then some (c.toNat - 48)
  else if 97 ≤ c.toNat && c.toNat ≤ 102 then some (c.toNat - 97 + 10)
  else if 65 ≤ c.toNat && c.toNat ≤ 70 then some (c.toNat - 65 + 10)
  else none

/-- JSON string literal body (after the opening quote): returns the
decoded characters and the input past the closing quote. -/
def parseJStringAux : Nat → List Char → List Char → Option (List Char × List Char)
  | 0, _, _ => none
  | _ + 1, _, [] => none
  | fuel + 1, acc, c :: rest =>
    if c = '"' then some (acc.reverse, rest)
    else if c = '\\' then
      match rest with
      | [] => none
      | e :: rest2 =>
        if e = '"' then parseJStringAux fuel ('"' :: acc) rest2
        else if e = '\\' then parseJStringAux fuel ('\\' :: acc) rest2
        else if e = '/' then parseJStringAux fuel ('/' :: acc) rest2
        else if e = 'b' then parseJStringAux fuel (Char.ofNat 8 :: acc) rest2
        else if e = 'f' then parseJStringAux fuel (Char.ofNat 12 :: acc) rest2
        else if e = 'n' then parseJStringAux fuel ('\n' :: acc) rest2
        else if e = 'r' then parseJStringAux fuel (Char.ofNat 13 :: acc) rest2
        else if e = 't' then parseJStringAux fuel ('\t' :: acc) rest2
        else if e = 'u' then
          match rest2 with
          | h1 :: h2 :: h3 :: h4 :: rest3 =>
            match hexVal h1, hexVal h2, hexVal h3, hexVal h4 with
            | some v1, some v2, some v3, some v4 =>
              parseJStringAux fuel
                (Char.ofNat (v1 * 4096 + v2 * 256 + v3 * 16 + v4) :: acc) rest3
            | _, _, _, _ => none
          | _ => none
        else none
    else if c.toNat < 32 then none
    else parseJStringAux fuel (c :: acc) rest

def parseJNat (cs : List Char) : Option (Nat × List Char) :=
  let ds := cs.takeWhile isDigitChar
  if ds.isEmpty then none else some (digitsVal ds, cs.dropWhile isDigitChar)

/-- JSON numbers, modelled as integers (no fraction/exponent). -/
def parseJNum (cs : List Char) : Option (Int × List Char) :=
  match cs with
  | '-' :: rest => (parseJNat rest).map (fun p => (-(p.1 : Int), p.2))
  | _ => (parseJNat cs).map (fun p => ((p.1 : Int), p.2))

mutual

def parseJValAux : Nat → List Char → Option (JVal × List Char)
  | 0, _ => none
  | fuel + 1, cs =>
    match skipWs cs with
    | [] => none
    | c :: rest =>
      if c = '"' then
        (parseJStringAux (rest.length + 1) [] rest).map (fun p => (.jstr ⟨p.1⟩, p.2))
      else if c = '\x7b' then
        match skipWs rest with
        | '\x7d' :: rest2 => some (.jobj [], rest2)
        | _ => parseJMembersAux fuel [] rest
      else if c = '[' then
        match skipWs rest with
        | ']' :: rest2 => some (.jarr [], rest2)
        | _ => parseJElemsAux fuel [] rest
      else if c = 't' then
        match rest with
        | 'r' :: 'u' :: 'e' :: rest2 => some (.jbool true, rest2)
        | _ => none
      else if c = 'f' then
        match rest with
        | 'a' :: 'l' :: 's' :: 'e' :: rest2 => some (.jbool false, rest2)
        | _ => none
      else if c = 'n' then
        match rest with
        | 'u' :: 'l' :: 'l' :: rest2 => some (.jnull, rest2)
        | _ => none
      else (parseJNum (c :: rest)).map (fun p => (.jnum p.1, p.2))

def parseJMembersAux : Nat → List (String × JVal) → List Char →
    Option (JVal × List Char)
  | 0, _, _ => none
  | fuel + 1, acc, cs =>
    match skipWs cs with
    | '"' :: rest =>
      match parseJStringAux (rest.length + 1) [] rest with
      | none => none
      | some (key, rest2) =>
        match skipWs rest2 with
        | ':' :: rest3 =>
          match parseJValAux fuel rest3 with
          | none => none
          | some (v, rest4) =>
            match skipWs rest4 with
            | ',' :: rest5 => parseJMembersAux fuel (acc ++ [(⟨key⟩, v)]) rest5
            | '\x7d' :: rest5 => some (.jobj (acc ++ [(⟨key⟩, v)]), rest5)
            | _ => none
        | _ => none
    | _ => none

def parseJElemsAux : Nat → List JVal → List Char → Option (JVal × List Char)
  | 0, _, _ => none
  | fuel + 1, acc, cs =>
    match parseJValAux fuel cs with
    | none => none
    | some (v, rest) =>
      match skipWs rest with
      | ',' :: rest2 => parseJElemsAux fuel (acc ++ [v]) rest2
      | ']' :: rest2 => some (.jarr (acc ++ [v]), rest2)
      | _ => none

end

/-- `JSON.parse`: one value, then only trailing whitespace. -/
def parseJsonChars (cs : List Char) : Option JVal :=
  match parseJValAux (cs.length + 1) cs with
  | some (v, rest) => if (skipWs rest).isEmpty then some v else none
  | none => none

/-- Property lookup on the parsed value, duplicate keys last-wins as in
`JSON.parse`; `undefined` (`none`) on non-objects. -/
def jLookup (v : JVal) (k : String) : Option JVal :=
  match v with
  | .jobj fs => (fs.reverse.find? (fun p => p.1 == k)).map (fun p => p.2)
  | _ => none

/-- The JSON value `JSON.parse` recovers from a stringified cursor. -/
def idJVal : CursorId → JVal
  | .str s => .jstr s
  | .num n => .jnum n

def cursorJVal (c : Cursor) : JVal :=
  .jobj [("created_at", .jstr c.created_at), ("id", idJVal c.id)]

/-- The two `typeof` shape checks of the cursor branch. -/
def cursorOfJVal (v : JVal) : Option Cursor :=
  match jLookup v "created_at" with
  | some (.jstr ca) =>
    match jLookup v "id" with
    | some (.jstr s) => some ⟨ca, .str s⟩
    | some (.jnum n) => some ⟨ca, .num n⟩
    | _ => none
  | _ => none

/-- The cursor branch of `parsePaginationParams`: base64-decode, parse as
JSON (failure caught with the base64/JSON error message), then the shape
checks (failure with the format error message). -/
def parseCursorParam (token : String) : Except String Cursor :=
  match parseJsonChars (utf8DecodeLossy (base64DecodeLenient token)) with
  | none => .error "Invalid cursor. Cursor must be a valid base64-encoded JSON string."
  | some v =>
    match cursorOfJVal v with
    | none => .error "Invalid cursor format."
    | some c => .ok c

/-! ### parsePaginationParams -/

/-- The three query parameters; `some ""` is a present-but-empty value
(falsy in JS, like an absent one). -/
structure SearchParams where
  limit : Option String
  cursor : Option String
  sort : Option String
  deriving DecidableEq, Repr

def truthy : Option String → Bool
  | none => false
  | some s => s ≠ ""

inductive PaginationParse
  | noParams
  | err (msg : String)
  | ok (limit : Nat) (cursor : Option Cursor) (sort : SortOption)
  deriving DecidableEq, Repr

def sortOfString (s : String) : Option SortOption :=
  if s = "created_at_desc" then some .created_at_desc
  else if s = "created_at_asc" then some .created_at_asc
  else if s = "id_desc" then some .id_desc
  else if s = "id_asc" then some .id_asc
  else none

/-- `parsePaginationParams` from `src/lib/pagination.ts`: back-compat
`noParams` when all three are absent/falsy; then limit, sort and cursor
validated in that order, first failure wins. -/
def parsePaginationParams (sp : SearchParams) : PaginationParse :=
  if !truthy sp.limit && !truthy sp.cursor && !truthy sp.sort then .noParams
  else
    let limitStep : Except String Nat :=
      if truthy sp.limit then
        match jsParseInt (sp.limit.getD "") with
        | none => .error "Invalid limit. Must be an integer between 1 and 100."
        | some v =>
          if v < 1 || v > 100 then
            .error "Invalid limit. Must be an integer between 1 and 100."
          else .ok v.toNat
      else .ok 20
    match limitStep with
    | .error msg => .err msg
    | .ok limit =>
      let sortStep : Except String SortOption :=
        if truthy sp.sort then
          match sortOfString (sp.sort.getD "") with
          | none =>
            .error "Invalid sort. Must be one of: created_at_desc, created_at_asc, id_desc, id_asc"
          | some s => .ok s
        else .ok .created_at_desc
      match sortStep with
      | .error msg => .err msg
      | .ok sort =>
        if truthy sp.cursor then
          match parseCursorParam (sp.cursor.getD "") with
          | .error msg => .err msg
          | .ok c => .ok limit (some c) sort
        else .ok limit none sort

/-! # Theorems -/

/-- C1: whenever the bearer credential verifies (`authUserId = some uid`)
but the account `getAppUser` resolves for the request does not hold the
required role (no account, or an account with a different role),
`requireRole` fails with `FORBIDDEN`; conversely a caller passes the role
gate only with a resolved account that holds exactly the requested role. -/
theorem requireRole_role_gate (env : Env) (db : Db) (uid : String) (role : Role) :
    ((¬ ∃ au, getAppUser env db uid role = some au ∧ au.role = role) →
      requireRole env db (some uid) role = .error .FORBIDDEN) ∧
    (∀ p, requireRole env db (some uid) role = .ok p →
      getAppUser env db uid role = some p.2 ∧ p.2.role = role) := by
  have hred : requireRole env db (some uid) role =
      (match getAppUser env db uid role with
       | none => .error .FORBIDDEN
       | some appUser =>
         if appUser.role ≠ role then .error .FORBIDDEN else .ok (uid, appUser)) := rfl
  constructor
  · intro h
    rw [hred]
    cases hg : getAppUser env db uid role with
    | none => rfl
    | some au =>
      have hne : au.role ≠ role := fun he => h ⟨au, hg, he⟩
      simp [hne]
  · intro p hp
    rw [hred] at hp
    cases hg : getAppUser env db uid role with
    | none => rw [hg] at hp; cases hp
    | some au =>
      rw [hg] at hp
      dsimp only at hp
      by_cases hr : au.role = role
      · rw [if_neg (fun hn => hn hr)] at hp
        injection hp with h2
        subst h2
        exact ⟨rfl, hr⟩
      · simp [hr] at hp

/-- Witness for C1 at a concrete input: empty user table, no
`DEV_ARTIST_ID`, so no resolved account holds `ARTIST`. -/
theorem requireRole_role_gate_witness :
    requireRole ⟨true, true, none⟩ ⟨[], [], [], []⟩ (some "u") .ARTIST =
      .error .FORBIDDEN :=
  (requireRole_role_gate ⟨true, true, none⟩ ⟨[], [], [], []⟩ "u" .ARTIST).1
    (by rintro ⟨au, hau, -⟩; simp [getAppUser, findFirstArtist] at hau)

/-! ### Handlers mutate the store only on success -/

theorem acceptPOST_db_or_ok (env : Env) (db : Db) (a : Option String)
    (mid : String) (now : Nat) :
    (acceptPOST env db a mid now).2 = db ∨
      ∃ m, (acceptPOST env db a mid now).1 = .ok m := by
  unfold acceptPOST
  repeat' split
  all_goals first
    | exact Or.inl rfl
    | exact Or.inr ⟨_, rfl⟩

theorem submitPOST_db_or_ok (env : Env) (db : Db) (a : Option String)
    (mid url : String) (uv : Bool) (sid : String) (now : Nat) :
    (submitPOST env db a mid url uv sid now).2 = db ∨
      ∃ m s, (submitPOST env db a mid url uv sid now).1 = .ok m s := by
  unfold submitPOST
  repeat' split
  all_goals first
    | exact Or.inl rfl
    | exact Or.inr ⟨_, _, rfl⟩

theorem verifyPOST_db_or_ok (env : Env) (db : Db) (a : Option String)
    (mid : String) (now : Nat) :
    (verifyPOST env db a mid now).2 = db ∨
      ∃ m, (verifyPOST env db a mid now).1 = .ok m := by
  unfold verifyPOST
  repeat' split
  all_goals first
    | exact Or.inl rfl
    | exact Or.inr ⟨_, rfl⟩

theorem payoutPOST_db_or_ok (env : Env) (db : Db) (a : Option String)
    (mid : String) (tr : Except StripeFailure Transfer) (now : Nat) :
    (payoutPOST env db a mid tr now).2.1 = db ∨
      ∃ m amt cur tid, (payoutPOST env db a mid tr now).1 = .ok m amt cur tid := by
  unfold payoutPOST
  repeat' split
  all_goals first
    | exact Or.inl rfl
    | exact Or.inr ⟨_, _, _, _, rfl⟩

theorem fundPOST_db_or_ok (env : Env) (db : Db) (a : Option String)
    (cidP : String) (pi : PaymentIntentInfo) :
    (fundPOST env db a cidP pi).2.1 = db ∨
      ∃ c, (fundPOST env db a cidP pi).1 = .ok c := by
  unfold fundPOST
  repeat' split
  all_goals first
    | exact Or.inl rfl
    | exact Or.inr ⟨_, rfl⟩

/-! ### Payout gating helpers -/

theorem payout_unfunded_db (env : Env) (db : Db) (a : Option String)
    (mid : String) (tr : Except StripeFailure Transfer) (now : Nat)
    (m : Mission) (hm : findMission db mid = some m)
    (c : Campaign) (hc : findCampaign db m.campaign_id = some c)
    (hnf : c.payment_status ≠ .FUNDED) :
    (payoutPOST env db a mid tr now).2 = (db, 0) := by
  unfold payoutPOST
  repeat' split
  all_goals try rfl
  all_goals simp_all

theorem payout_fundingRequired_res (env : Env) (db : Db) (a : Option String)
    (mid : String) (tr : Except StripeFailure Transfer) (now : Nat)
    (uid : String) (au : AppUser)
    (h1 : env.database_url = true) (h2 : env.stripe_secret_key = true)
    (hreq : requireRole env db a .ARTIST = .ok (uid, au))
    (m : Mission) (hm : findMission db mid = some m)
    (c : Campaign) (hc : findCampaign db m.campaign_id = some c)
    (hown : c.artist_id = au.id)
    (hnf : c.payment_status ≠ .FUNDED) :
    (payoutPOST env db a mid tr now).1 = .fundingRequired := by
  simp [payoutPOST, h1, h2, hreq, hm, hc, hown, hnf]

/-- C2: `canTransition` is exactly table membership with `from ≠ to`;
`assertTransition` succeeds exactly when `canTransition` holds and
otherwise fails with the invalid-transition message; `PAID` and `REJECTED`
admit no transition at all; and every handler path that rejects a
transition (state-precondition failure or `assertTransition` failure)
leaves the stored missions unchanged. -/
theorem mission_transition_closure :
    (∀ f t : MissionState,
      (canTransition f t = true ↔ t ∈ allowedTransitions f ∧ f ≠ t) ∧
      (assertTransition f t = .ok () ↔ canTransition f t = true) ∧
      (canTransition f t = false →
        assertTransition f t = .error (invalidTransitionMsg f t)) ∧
      ((f = .PAID ∨ f = .REJECTED) → canTransition f t = false)) ∧
    (∀ env db a mid now st, (acceptPOST env db a mid now).1 = .notOpen st →
      (acceptPOST env db a mid now).2 = db) ∧
    (∀ env db a mid url uv sid now st,
      (submitPOST env db a mid url uv sid now).1 = .notAccepted st →
      (submitPOST env db a mid url uv sid now).2 = db) ∧
    (∀ env db a mid now st, (verifyPOST env db a mid now).1 = .notSubmitted st →
      (verifyPOST env db a mid now).2 = db) ∧
    (∀ env db a mid tr now st,
      (payoutPOST env db a mid tr now).1 = .notVerified st →
      (payoutPOST env db a mid tr now).2.1 = db) ∧
    (∀ env db a mid tr now msg,
      (payoutPOST env db a mid tr now).1 = .invalidTransition msg →
      (payoutPOST env db a mid tr now).2.1 = db) := by
  refine ⟨by decide, ?_, ?_, ?_, ?_, ?_⟩
  · intro env db a mid now st h
    rcases acceptPOST_db_or_ok env db a mid now with h' | ⟨m, h''⟩
    · exact h'
    · rw [h] at h''; cases h''
  · intro env db a mid url uv sid now st h
    rcases submitPOST_db_or_ok env db a mid url uv sid now with h' | ⟨m, s, h''⟩
    · exact h'
    · rw [h] at h''; cases h''
  · intro env db a mid now st h
    rcases verifyPOST_db_or_ok env db a mid now with h' | ⟨m, h''⟩
    · exact h'
    · rw [h] at h''; cases h''
  · intro env db a mid tr now st h
    rcases payoutPOST_db_or_ok env db a mid tr now with h' | ⟨m, amt, cur, tid, h''⟩
    · exact h'
    · rw [h] at h''; cases h''
  · intro env db a mid tr now msg h
    rcases payoutPOST_db_or_ok env db a mid tr now with h' | ⟨m, amt, cur, tid, h''⟩
    · exact h'
    · rw [h] at h''; cases h''

/-- Witness for C2: a second accept against an already-ACCEPTED mission is
rejected and the store is unchanged. -/
theorem mission_transition_closure_witness :
    (acceptPOST ⟨true, true, none⟩
        ⟨[], [], [⟨"m1", 1, some "c1", .ACCEPTED, 500, 0, 0⟩], []⟩
        (some "c2") "m1" 5).1 = .notOpen .ACCEPTED ∧
    (acceptPOST ⟨true, true, none⟩
        ⟨[], [], [⟨"m1", 1, some "c1", .ACCEPTED, 500, 0, 0⟩], []⟩
        (some "c2") "m1" 5).2 =
      ⟨[], [], [⟨"m1", 1, some "c1", .ACCEPTED, 500, 0, 0⟩], []⟩ :=
  ⟨by decide,
   mission_transition_closure.2.1 ⟨true, true, none⟩
     ⟨[], [], [⟨"m1", 1, some "c1", .ACCEPTED, 500, 0, 0⟩], []⟩
     (some "c2") "m1" 5 .ACCEPTED (by decide)⟩

/-- C3: when the parent campaign is not FUNDED, the payout handler issues
zero processor calls and leaves the store unchanged, and — whenever the
request passes auth, lookup and ownership — fails with the
payment-required `fundingRequired` outcome, with no constraint on the
mission's state. -/
theorem payout_funding_gate (env : Env) (db : Db) (a : Option String)
    (mid : String) (tr : Except StripeFailure Transfer) (now : Nat)
    (m : Mission) (hm : findMission db mid = some m)
    (c : Campaign) (hc : findCampaign db m.campaign_id = some c)
    (hnf : c.payment_status ≠ .FUNDED) :
    (payoutPOST env db a mid tr now).2.2 = 0 ∧
    (payoutPOST env db a mid tr now).2.1 = db ∧
    (∀ uid au, env.database_url = true → env.stripe_secret_key = true →
      requireRole env db a .ARTIST = .ok (uid, au) → c.artist_id = au.id →
      (payoutPOST env db a mid tr now).1 = .fundingRequired) := by
  have h := payout_unfunded_db env db a mid tr now m hm c hc hnf
  refine ⟨by rw [h], by rw [h], ?_⟩
  intro uid au h1 h2 hreq hown
  exact payout_fundingRequired_res env db a mid tr now uid au h1 h2 hreq m hm c hc hown hnf

/-- Witness for C3 at a concrete input: a PENDING campaign, an owned,
VERIFIED mission, a resolvable artist — the payout is refused with
`fundingRequired`, no transfer call, store untouched. -/
theorem payout_funding_gate_witness :
    (payoutPOST ⟨true, true, none⟩
        ⟨[⟨1, some "a1", some .ARTIST, some "acct_1"⟩],
         [⟨1, 1, 50000, "usd", some "pi_1", .PENDING, 0⟩],
         [⟨"m1", 1, some "c1", .VERIFIED, 5000, 0, 0⟩], []⟩
        (some "a1") "m1" (.ok ⟨"tr_1"⟩) 7).2.2 = 0 ∧
    (payoutPOST ⟨true, true, none⟩
        ⟨[⟨1, some "a1", some .ARTIST, some "acct_1"⟩],
         [⟨1, 1, 50000, "usd", some "pi_1", .PENDING, 0⟩],
         [⟨"m1", 1, some "c1", .VERIFIED, 5000, 0, 0⟩], []⟩
        (some "a1") "m1" (.ok ⟨"tr_1"⟩) 7).1 = .fundingRequired := by
  have h := payout_funding_gate ⟨true, true, none⟩
      ⟨[⟨1, some "a1", some .ARTIST, some "acct_1"⟩],
       [⟨1, 1, 50000, "usd", some "pi_1", .PENDING, 0⟩],
       [⟨"m1", 1, some "c1", .VERIFIED, 5000, 0, 0⟩], []⟩
      (some "a1") "m1" (.ok ⟨"tr_1"⟩) 7
      ⟨"m1", 1, some "c1", .VERIFIED, 5000, 0, 0⟩ (by decide)
      ⟨1, 1, 50000, "usd", some "pi_1", .PENDING, 0⟩ (by decide) (by decide)
  exact ⟨h.1, h.2.2 "a1" ⟨1, .ARTIST⟩ rfl rfl (by decide) rfl⟩

/-! ### Processor-failure helpers -/

theorem payout_error_db (env : Env) (db : Db) (a : Option String)
    (mid : String) (f : StripeFailure) (now : Nat) :
    (payoutPOST env db a mid (.error f) now).2.1 = db := by
  unfold payoutPOST
  repeat' split
  all_goals first | rfl | simp_all

theorem payout_reaches_transfer_res (env : Env) (db : Db) (a : Option String)
    (mid : String) (now : Nat) (uid : String) (au : AppUser)
    (h1 : env.database_url = true) (h2 : env.stripe_secret_key = true)
    (hreq : requireRole env db a .ARTIST = .ok (uid, au))
    (m : Mission) (hm : findMission db mid = some m)
    (c : Campaign) (hc : findCampaign db m.campaign_id = some c)
    (hown : c.artist_id = au.id)
    (hfund : c.payment_status = .FUNDED)
    (hst : m.state = .VERIFIED)
    (cid : String) (hcr : m.creator_id = some cid)
    (creator : User) (hcreator : findUserByAuthId db cid = some creator)
    (acct : String) (hacct : creator.stripe_account_id = some acct) :
    (∀ f : StripeFailure, f.isStripeError = true →
      (payoutPOST env db a mid (.error f) now).1 =
        .paymentFailed ("Payment failed: " ++ f.message)) ∧
    (∀ t : Transfer,
      (payoutPOST env db a mid (.ok t) now).1 =
        .ok { m with state := .PAID, updated_at := now } m.payout_cents c.currency t.id ∧
      (payoutPOST env db a mid (.ok t) now).2.1 =
        updateMissionRow db mid (fun mm =>
          { mm with state := .PAID, updated_at := now })) := by
  have ha : assertTransition .VERIFIED .PAID = .ok () := rfl
  constructor
  · intro f hf
    simp [payoutPOST, h1, h2, hreq, hm, hc, hown, hfund, hst, hcr, hcreator, hacct, hf, ha]
  · intro t
    constructor <;>
      simp [payoutPOST, h1, h2, hreq, hm, hc, hown, hfund, hst, hcr, hcreator, hacct, ha]

/-- C4: once a payout request reaches the external transfer step, a
processor failure surfaces the processing error carrying the processor's
message, and the store — in particular the mission's VERIFIED state — is
left untouched; the `state = PAID` write is issued only on processor
success, as the final action. -/
theorem payout_processor_failure (env : Env) (db : Db) (a : Option String)
    (mid : String) (now : Nat) (uid : String) (au : AppUser)
    (h1 : env.database_url = true) (h2 : env.stripe_secret_key = true)
    (hreq : requireRole env db a .ARTIST = .ok (uid, au))
    (m : Mission) (hm : findMission db mid = some m)
    (c : Campaign) (hc : findCampaign db m.campaign_id = some c)
    (hown : c.artist_id = au.id)
    (hfund : c.payment_status = .FUNDED)
    (hst : m.state = .VERIFIED)
    (cid : String) (hcr : m.creator_id = some cid)
    (creator : User) (hcreator : findUserByAuthId db cid = some creator)
    (acct : String) (hacct : creator.stripe_account_id = some acct) :
    (∀ f : StripeFailure, (payoutPOST env db a mid (.error f) now).2.1 = db) ∧
    (∀ f : StripeFailure, f.isStripeError = true →
      (payoutPOST env db a mid (.error f) now).1 =
        .paymentFailed ("Payment failed: " ++ f.message)) ∧
    (∀ t : Transfer,
      (payoutPOST env db a mid (.ok t) now).1 =
        .ok { m with state := .PAID, updated_at := now } m.payout_cents c.currency t.id ∧
      (payoutPOST env db a mid (.ok t) now).2.1 =
        updateMissionRow db mid (fun mm =>
          { mm with state := .PAID, updated_at := now })) :=
  ⟨fun f => payout_error_db env db a mid f now,
   (payout_reaches_transfer_res env db a mid now uid au h1 h2 hreq m hm c hc hown
      hfund hst cid hcr creator hcreator acct hacct).1,
   (payout_reaches_transfer_res env db a mid now uid au h1 h2 hreq m hm c hc hown
      hfund hst cid hcr creator hcreator acct hacct).2⟩

/-- Witness for C4 at a concrete input: FUNDED campaign, VERIFIED owned
mission, onboarded creator; the processor rejects with "boom" — the error
carries the message and the store is unchanged. -/
theorem payout_processor_failure_witness :
    (payoutPOST ⟨true, true, none⟩
        ⟨[⟨1, some "a1", some .ARTIST, none⟩, ⟨2, some "c1", some .CREATOR, some "acct_c"⟩],
         [⟨1, 1, 50000, "usd", some "pi_1", .FUNDED, 0⟩],
         [⟨"m1", 1, some "c1", .VERIFIED, 5000, 0, 0⟩], []⟩
        (some "a1") "m1" (.error ⟨true, "boom"⟩) 7).1 =
      .paymentFailed "Payment failed: boom" ∧
    (payoutPOST ⟨true, true, none⟩
        ⟨[⟨1, some "a1", some .ARTIST, none⟩, ⟨2, some "c1", some .CREATOR, some "acct_c"⟩],
         [⟨1, 1, 50000, "usd", some "pi_1", .FUNDED, 0⟩],
         [⟨"m1", 1, some "c1", .VERIFIED, 5000, 0, 0⟩], []⟩
        (some "a1") "m1" (.error ⟨true, "boom"⟩) 7).2.1 =
      ⟨[⟨1, some "a1", some .ARTIST, none⟩, ⟨2, some "c1", some .CREATOR, some "acct_c"⟩],
       [⟨1, 1, 50000, "usd", some "pi_1", .FUNDED, 0⟩],
       [⟨"m1", 1, some "c1", .VERIFIED, 5000, 0, 0⟩], []⟩ := by
  have h := payout_processor_failure ⟨true, true, none⟩
      ⟨[⟨1, some "a1", some .ARTIST, none⟩, ⟨2, some "c1", some .CREATOR, some "acct_c"⟩],
       [⟨1, 1, 50000, "usd", some "pi_1", .FUNDED, 0⟩],
       [⟨"m1", 1, some "c1", .VERIFIED, 5000, 0, 0⟩], []⟩
      (some "a1") "m1" 7 "a1" ⟨1, .ARTIST⟩ rfl rfl (by decide)
      ⟨"m1", 1, some "c1", .VERIFIED, 5000, 0, 0⟩ (by decide)
      ⟨1, 1, 50000, "usd", some "pi_1", .FUNDED, 0⟩ (by decide) rfl rfl rfl
      "c1" rfl ⟨2, some "c1", some .CREATOR, some "acct_c"⟩ (by decide) "acct_c" rfl
  exact ⟨h.2.1 ⟨true, "boom"⟩ rfl, h.1 ⟨true, "boom"⟩⟩

/-! ### Submission upsert -/

theorem find?_map_update (l : List Mission) (mid : String) (f : Mission → Mission)
    (hf : ∀ m, (f m).id = m.id) :
    (l.map (fun m => if m.id == mid then f m else m)).find? (fun m => m.id == mid)
      = (l.find? (fun m => m.id == mid)).map f := by
  induction l with
  | nil => rfl
  | cons hd tl ih =>
    by_cases h : (hd.id == mid) = true
    · have h' : ((f hd).id == mid) = true := by rw [hf]; exact h
      simp only [List.map_cons, h, eq_self_iff_true, if_true, ite_true, List.find?,
        h', Option.map_some']
    · simp only [List.map_cons, if_neg h, List.find?, h, ih]
      simp [h]

theorem findMission_update (db : Db) (mid : String) (f : Mission → Mission)
    (hf : ∀ m, (f m).id = m.id) :
    findMission (updateMissionRow db mid f) mid = (findMission db mid).map f :=
  find?_map_update db.missions mid f hf

theorem submit_notAccepted (env : Env) (db : Db) (uid mid url sid : String)
    (now : Nat) (m : Mission) (henv : env.database_url = true)
    (hm : findMission db mid = some m) (hst : m.state ≠ .ACCEPTED) :
    submitPOST env db (some uid) mid url true sid now = (.notAccepted m.state, db) := by
  have hrr : requireRole env db (some uid) .CREATOR = .ok (uid, ⟨0, .CREATOR⟩) := rfl
  simp [submitPOST, henv, hrr, hm, hst]

/-- C5 counterexample: submitting `{url: A}` then `{url: B}` against the
same mission does NOT leave a row with `url = B` — the second submit is
rejected because the mission is already SUBMITTED, and the single row
keeps `url = A`. -/
theorem submit_overwrite_counterexample :
    ((submitPOST ⟨true, true, none⟩
        (submitPOST ⟨true, true, none⟩
          ⟨[], [], [⟨"m1", 1, some "c1", .ACCEPTED, 500, 0, 0⟩], []⟩
          (some "c1") "m1" "https://e/a" true "s1" 1).2
        (some "c1") "m1" "https://e/b" true "s2" 2).2.submissions.map
          Submission.tiktok_url = ["https://e/a"]) ∧
    ((submitPOST ⟨true, true, none⟩
        (submitPOST ⟨true, true, none⟩
          ⟨[], [], [⟨"m1", 1, some "c1", .ACCEPTED, 500, 0, 0⟩], []⟩
          (some "c1") "m1" "https://e/a" true "s1" 1).2
        (some "c1") "m1" "https://e/b" true "s2" 2).1 =
      .notAccepted .SUBMITTED) := by
  decide

/-- C5 (amended): from an ACCEPTED mission owned by the caller with no
prior Submission, submitting `{url: A}` creates exactly one Submission row
with `url = A`; a following submit of `{url: B}` is rejected with the
not-ACCEPTED error and changes nothing, so exactly one row remains and its
content reference is `A` — the upsert keyed by Mission id never creates a
second row, and resubmission through the route is impossible once the
mission is SUBMITTED. -/
theorem submit_then_resubmit (env : Env) (db : Db)
    (uid mid urlA urlB sidA sidB : String) (t1 t2 : Nat) (m : Mission)
    (henv : env.database_url = true)
    (hm : findMission db mid = some m)
    (hst : m.state = .ACCEPTED)
    (hcr : m.creator_id = some uid)
    (hns : db.submissions.find? (fun s => s.mission_id == mid) = none) :
    ((submitPOST env db (some uid) mid urlA true sidA t1).2.submissions.filter
        (fun s => s.mission_id == mid)).map Submission.tiktok_url = [urlA] ∧
    (submitPOST env (submitPOST env db (some uid) mid urlA true sidA t1).2
        (some uid) mid urlB true sidB t2).1 = .notAccepted .SUBMITTED ∧
    (submitPOST env (submitPOST env db (some uid) mid urlA true sidA t1).2
        (some uid) mid urlB true sidB t2).2 =
      (submitPOST env db (some uid) mid urlA true sidA t1).2 := by
  have hrr : ∀ d : Db, requireRole env d (some uid) .CREATOR =
      .ok (uid, ⟨0, .CREATOR⟩) := fun _ => rfl
  have ha : assertTransition .ACCEPTED .SUBMITTED = .ok () := rfl
  have hup : upsertSubmission db mid urlA sidA t1 =
      (⟨sidA, mid, urlA, t1⟩,
       { db with submissions := db.submissions ++ [⟨sidA, mid, urlA, t1⟩] }) := by
    simp [upsertSubmission, hns]
  have h1 : submitPOST env db (some uid) mid urlA true sidA t1 =
      (.ok { m with state := .SUBMITTED, updated_at := t1 } ⟨sidA, mid, urlA, t1⟩,
       updateMissionRow
         { db with submissions := db.submissions ++ [⟨sidA, mid, urlA, t1⟩] } mid
         (fun mm => { mm with state := .SUBMITTED, updated_at := t1 })) := by
    simp [submitPOST, henv, hrr, hm, hst, hcr, ha, hup]
  have hfind1 : findMission (submitPOST env db (some uid) mid urlA true sidA t1).2 mid =
      some { m with state := .SUBMITTED, updated_at := t1 } := by
    rw [h1]
    rw [findMission_update
      { db with submissions := db.submissions ++ [⟨sidA, mid, urlA, t1⟩] } mid
      (fun mm => { mm with state := .SUBMITTED, updated_at := t1 }) (fun mm => rfl)]
    have hsame : findMission
        { db with submissions := db.submissions ++ [⟨sidA, mid, urlA, t1⟩] } mid =
        findMission db mid := rfl
    rw [hsame, hm]
    rfl
  have h2 : submitPOST env (submitPOST env db (some uid) mid urlA true sidA t1).2
      (some uid) mid urlB true sidB t2 =
      (.notAccepted .SUBMITTED,
       (submitPOST env db (some uid) mid urlA true sidA t1).2) :=
    submit_notAccepted env _ uid mid urlB sidB t2
      { m with state := .SUBMITTED, updated_at := t1 } henv hfind1 (by simp)
  refine ⟨?_, by rw [h2], by rw [h2]⟩
  rw [h1]
  show (((db.submissions ++ [(⟨sidA, mid, urlA, t1⟩ : Submission)]).filter
      (fun s => s.mission_id == mid)).map Submission.tiktok_url) = [urlA]
  rw [List.filter_append]
  have hnil : db.submissions.filter (fun s => s.mission_id == mid) = [] := by
    refine List.filter_eq_nil_iff.mpr ?_
    intro s hs
    simpa using List.find?_eq_none.mp hns s hs
  rw [hnil]
  simp

/-- Witness for the amended C5 at a concrete input. -/
theorem submit_then_resubmit_witness :
    ((submitPOST ⟨true, true, none⟩
        ⟨[], [], [⟨"m1", 1, some "c1", .ACCEPTED, 500, 0, 0⟩], []⟩
        (some "c1") "m1" "https://e/a" true "s1" 1).2.submissions.filter
          (fun s => s.mission_id == "m1")).map Submission.tiktok_url = ["https://e/a"] ∧
    (submitPOST ⟨true, true, none⟩
        (submitPOST ⟨true, true, none⟩
          ⟨[], [], [⟨"m1", 1, some "c1", .ACCEPTED, 500, 0, 0⟩], []⟩
          (some "c1") "m1" "https://e/a" true "s1" 1).2
        (some "c1") "m1" "https://e/b" true "s2" 2).1 = .notAccepted .SUBMITTED ∧
    (submitPOST ⟨true, true, none⟩
        (submitPOST ⟨true, true, none⟩
          ⟨[], [], [⟨"m1", 1, some "c1", .ACCEPTED, 500, 0, 0⟩], []⟩
          (some "c1") "m1" "https://e/a" true "s1" 1).2
        (some "c1") "m1" "https://e/b" true "s2" 2).2 =
      (submitPOST ⟨true, true, none⟩
        ⟨[], [], [⟨"m1", 1, some "c1", .ACCEPTED, 500, 0, 0⟩], []⟩
        (some "c1") "m1" "https://e/a" true "s1" 1).2 :=
  submit_then_resubmit ⟨true, true, none⟩
    ⟨[], [], [⟨"m1", 1, some "c1", .ACCEPTED, 500, 0, 0⟩], []⟩
    "c1" "m1" "https://e/a" "https://e/b" "s1" "s2" 1 2
    ⟨"m1", 1, some "c1", .ACCEPTED, 500, 0, 0⟩
    rfl (by decide) rfl rfl rfl

/-! ### Funding-confirmation gating -/

theorem fund_funded_db (env : Env) (db : Db) (a : Option String)
    (cidP : String) (pi : PaymentIntentInfo)
    (cid : Int) (hcid : jsParseInt cidP = some cid)
    (c : Campaign) (hc : findCampaignInt db cid = some c)
    (hf : c.payment_status = .FUNDED) :
    (fundPOST env db a cidP pi).2 = (db, 0) := by
  unfold fundPOST
  repeat' split
  all_goals try rfl
  all_goals simp_all

/-- C10: confirming funding on an already-FUNDED campaign fails with the
already-funded error before any processor query (zero `retrieve` calls on
every path), and leaves the campaign row — funding status and
payment-intent reference included — unchanged. -/
theorem fund_already_funded (env : Env) (db : Db) (a : Option String)
    (cidP : String) (pi : PaymentIntentInfo)
    (cid : Int) (hcid : jsParseInt cidP = some cid)
    (c : Campaign) (hc : findCampaignInt db cid = some c)
    (hf : c.payment_status = .FUNDED) :
    (fundPOST env db a cidP pi).2.2 = 0 ∧
    (fundPOST env db a cidP pi).2.1 = db ∧
    (∀ uid au, env.database_url = true → env.stripe_secret_key = true →
      requireRole env db a .ARTIST = .ok (uid, au) → c.artist_id = au.id →
      (fundPOST env db a cidP pi).1 = .alreadyFunded) := by
  have h := fund_funded_db env db a cidP pi cid hcid c hc hf
  refine ⟨by rw [h], by rw [h], ?_⟩
  intro uid au h1 h2 hreq hown
  simp [fundPOST, h1, h2, hcid, hreq, hc, hown, hf]

/-- Witness for C10 at a concrete input: a FUNDED campaign with a
payment-intent reference; the confirmation is refused with zero
processor calls and an unchanged store. -/
theorem fund_already_funded_witness :
    (fundPOST ⟨true, true, none⟩
        ⟨[⟨1, some "a1", some .ARTIST, none⟩],
         [⟨1, 1, 50000, "usd", some "pi_1", .FUNDED, 0⟩], [], []⟩
        (some "a1") "1" ⟨"pi_1", "succeeded", "sec"⟩).2.2 = 0 ∧
    (fundPOST ⟨true, true, none⟩
        ⟨[⟨1, some "a1", some .ARTIST, none⟩],
         [⟨1, 1, 50000, "usd", some "pi_1", .FUNDED, 0⟩], [], []⟩
        (some "a1") "1" ⟨"pi_1", "succeeded", "sec"⟩).2.1 =
      ⟨[⟨1, some "a1", some .ARTIST, none⟩],
       [⟨1, 1, 50000, "usd", some "pi_1", .FUNDED, 0⟩], [], []⟩ ∧
    (fundPOST ⟨true, true, none⟩
        ⟨[⟨1, some "a1", some .ARTIST, none⟩],
         [⟨1, 1, 50000, "usd", some "pi_1", .FUNDED, 0⟩], [], []⟩
        (some "a1") "1" ⟨"pi_1", "succeeded", "sec"⟩).1 = .alreadyFunded := by
  have h := fund_already_funded ⟨true, true, none⟩
      ⟨[⟨1, some "a1", some .ARTIST, none⟩],
       [⟨1, 1, 50000, "usd", some "pi_1", .FUNDED, 0⟩], [], []⟩
      (some "a1") "1" ⟨"pi_1", "succeeded", "sec"⟩
      1 (by decide) ⟨1, 1, 50000, "usd", some "pi_1", .FUNDED, 0⟩ (by decide) rfl
  exact ⟨h.1, h.2.1, h.2.2 "a1" ⟨1, .ARTIST⟩ rfl rfl (by decide) rfl⟩

/-! ### The assignee invariant -/

theorem upsertSubmission_db (db : Db) (mid url sid : String) (now : Nat) :
    (upsertSubmission db mid url sid now).2 =
      { db with submissions := (upsertSubmission db mid url sid now).2.submissions } := by
  unfold upsertSubmission
  split <;> rfl

theorem find?_eq_of_mem_nodup (l : List Mission) (mid : String)
    (hnd : (l.map Mission.id).Nodup) (mm : Mission) (hmm : mm ∈ l)
    (h : (mm.id == mid) = true) :
    l.find? (fun x => x.id == mid) = some mm := by
  induction l with
  | nil => cases hmm
  | cons hd tl ih =>
    rw [List.map_cons] at hnd
    rcases List.mem_cons.mp hmm with rfl | hmm'
    · exact List.find?_cons_of_pos _ h
    · by_cases hhd : (hd.id == mid) = true
      · exfalso
        have h1 : hd.id = mid := by simpa using hhd
        have h2 : mm.id = mid := by simpa using h
        have : hd.id ∈ tl.map Mission.id := by
          rw [h1, ← h2]; exact List.mem_map_of_mem Mission.id hmm'
        exact (List.nodup_cons.mp hnd).1 this
      · have hfalse : (hd.id == mid) = false := by simpa using hhd
        simp only [List.find?, hfalse]
        exact ih (List.nodup_cons.mp hnd).2 hmm'

theorem dbInv_update (db : Db) (subs : List Submission) (mid : String)
    (f : Mission → Mission) (hid : ∀ mm, (f mm).id = mm.id)
    (hinv : dbInv db)
    (hf : ∀ mm ∈ db.missions, (mm.id == mid) = true → missionInv (f mm)) :
    dbInv (updateMissionRow { db with submissions := subs } mid f) := by
  obtain ⟨hnd, hall⟩ := hinv
  constructor
  · show ((db.missions.map fun m => if m.id == mid then f m else m).map Mission.id).Nodup
    have hmaps : (db.missions.map fun m => if m.id == mid then f m else m).map Mission.id
        = db.missions.map Mission.id := by
      rw [List.map_map]
      apply List.map_congr_left
      intro mm _
      by_cases h : (mm.id == mid) = true
      · show (if mm.id == mid then f mm else mm).id = mm.id
        rw [if_pos h, hid]
      · show (if mm.id == mid then f mm else mm).id = mm.id
        rw [if_neg h]
    rw [hmaps]
    exact hnd
  · intro r hr
    have hr' : r ∈ db.missions.map (fun m => if m.id == mid then f m else m) := hr
    rw [List.mem_map] at hr'
    obtain ⟨mm, hmm, rfl⟩ := hr'
    by_cases h : (mm.id == mid) = true
    · rw [if_pos h]
      exact hf mm hmm h
    · rw [if_neg h]
      exact hall mm hmm

theorem dbInv_of_missions_eq (d d' : Db) (h : d'.missions = d.missions)
    (hinv : dbInv d) : dbInv d' := by
  unfold dbInv
  rw [h]
  exact hinv

theorem createMissionPOST_db (env : Env) (db : Db) (a : Option String)
    (cidP : String) (payout : Int) (mid : String) (now : Nat) :
    (createMissionPOST env db a cidP payout mid now).2 = db ∨
    ∃ cid, (createMissionPOST env db a cidP payout mid now).2 =
      { db with missions := db.missions ++ [⟨mid, cid, none, .OPEN, payout, now, now⟩] } := by
  unfold createMissionPOST
  repeat' split
  all_goals first
    | exact Or.inl rfl
    | exact Or.inr ⟨_, rfl⟩

theorem acceptPOST_db (env : Env) (db : Db) (a : Option String)
    (mid : String) (now : Nat) :
    (acceptPOST env db a mid now).2 = db ∨
    ∃ uid, (acceptPOST env db a mid now).2 = updateMissionRow db mid
      (fun mm => { mm with creator_id := some uid, state := .ACCEPTED, updated_at := now }) := by
  unfold acceptPOST
  repeat' split
  all_goals first
    | exact Or.inl rfl
    | exact Or.inr ⟨_, rfl⟩

theorem submitPOST_db (env : Env) (db : Db) (a : Option String)
    (mid url : String) (uv : Bool) (sid : String) (now : Nat) :
    (submitPOST env db a mid url uv sid now).2 = db ∨
    ∃ m, findMission db mid = some m ∧ m.state = .ACCEPTED ∧
      ∃ subs, (submitPOST env db a mid url uv sid now).2 =
        updateMissionRow { db with submissions := subs } mid
          (fun mm => { mm with state := .SUBMITTED, updated_at := now }) := by
  unfold submitPOST
  split
  · exact Or.inl rfl
  · split
    · exact Or.inl rfl
    · split
      · exact Or.inl rfl
      · exact Or.inl rfl
      · split
        · exact Or.inl rfl
        · rename_i mission hfind
          split
          · exact Or.inl rfl
          · rename_i hstate
            split
            · exact Or.inl rfl
            · split
              · exact Or.inl rfl
              · refine Or.inr ⟨mission, hfind, not_ne_iff.mp hstate,
                  (upsertSubmission db mid url sid now).2.submissions, ?_⟩
                exact congrArg
                  (fun d => updateMissionRow d mid (fun mm =>
                    { mm with state := .SUBMITTED, updated_at := now }))
                  (upsertSubmission_db db mid url sid now)

theorem verifyPOST_db (env : Env) (db : Db) (a : Option String)
    (mid : String) (now : Nat) :
    (verifyPOST env db a mid now).2 = db ∨
    ∃ m, findMission db mid = some m ∧ m.state = .SUBMITTED ∧
      (verifyPOST env db a mid now).2 = updateMissionRow db mid
        (fun mm => { mm with state := .VERIFIED, updated_at := now }) := by
  unfold verifyPOST
  split
  · exact Or.inl rfl
  · split
    · exact Or.inl rfl
    · exact Or.inl rfl
    · split
      · exact Or.inl rfl
      · rename_i mission hfind
        split
        · exact Or.inl rfl
        · split
          · exact Or.inl rfl
          · split
            · exact Or.inl rfl
            · rename_i hstate
              split
              · exact Or.inl rfl
              · exact Or.inr ⟨mission, hfind, not_ne_iff.mp hstate, rfl⟩

theorem payoutPOST_db (env : Env) (db : Db) (a : Option String)
    (mid : String) (tr : Except StripeFailure Transfer) (now : Nat) :
    (payoutPOST env db a mid tr now).2.1 = db ∨
    ∃ m, findMission db mid = some m ∧ m.state = .VERIFIED ∧
      (payoutPOST env db a mid tr now).2.1 = updateMissionRow db mid
        (fun mm => { mm with state := .PAID, updated_at := now }) := by
  unfold payoutPOST
  split
  · exact Or.inl rfl
  · split
    · exact Or.inl rfl
    · split
      · exact Or.inl rfl
      · exact Or.inl rfl
      · split
        · exact Or.inl rfl
        · rename_i mission hfind
          split
          · exact Or.inl rfl
          · split
            · exact Or.inl rfl
            · split
              · exact Or.inl rfl
              · split
                · exact Or.inl rfl
                · rename_i hstate
                  split
                  · exact Or.inl rfl
                  · split
                    · exact Or.inl rfl
                    · split
                      · exact Or.inl rfl
                      · split
                        · exact Or.inl rfl
                        · split
                          · split
                            · exact Or.inl rfl
                            · exact Or.inl rfl
                          · exact Or.inr
                              ⟨mission, hfind, not_ne_iff.mp hstate, rfl⟩

theorem fundPOST_missions (env : Env) (db : Db) (a : Option String)
    (cidP : String) (pi : PaymentIntentInfo) :
    (fundPOST env db a cidP pi).2.1.missions = db.missions := by
  unfold fundPOST
  repeat' split
  all_goals rfl

/-- Every reachable store satisfies the primary-key and assignee
invariants. -/
theorem reachable_dbInv (db : Db) (h : ReachableDb db) : dbInv db := by
  induction h with
  | init users campaigns subs =>
    exact ⟨List.nodup_nil, fun m hm => absurd hm (List.not_mem_nil m)⟩
  | step _ hstep ih =>
    rename_i d d' _
    cases hstep with
    | create env a cidP payout mid now hfresh =>
      rcases createMissionPOST_db env d a cidP payout mid now with h | ⟨cid, h⟩
      · rw [h]; exact ih
      · rw [h]
        obtain ⟨hnd, hall⟩ := ih
        constructor
        · show ((d.missions ++ [_]).map Mission.id).Nodup
          rw [List.map_append]
          rw [List.nodup_append]
          refine ⟨hnd, List.nodup_singleton _, ?_⟩
          intro x hx hx'
          rw [List.mem_map] at hx
          obtain ⟨mm, hmm, rfl⟩ := hx
          simp at hx'
          exact hfresh mm hmm hx'
        · intro r hr
          rcases List.mem_append.mp hr with hr' | hr'
          · exact hall r hr'
          · rw [List.mem_singleton] at hr'
            subst hr'
            simp [missionInv]
    | accept env a mid now =>
      rcases acceptPOST_db env d a mid now with h | ⟨uid, h⟩
      · rw [h]; exact ih
      · rw [h]
        exact dbInv_update d d.submissions mid _ (fun mm => rfl) ih
          (fun mm _ _ => by simp [missionInv])
    | submit env a mid url uv sid now =>
      rcases submitPOST_db env d a mid url uv sid now with h | ⟨m, hm, hst, subs, h⟩
      · rw [h]; exact ih
      · rw [h]
        refine dbInv_update d subs mid _ (fun mm => rfl) ih ?_
        intro mm hmm hbeq
        have hfound := find?_eq_of_mem_nodup d.missions mid ih.1 mm hmm hbeq
        have : m = mm := by
          rw [show findMission d mid = d.missions.find? (fun x => x.id == mid) from rfl]
            at hm
          rw [hfound] at hm
          exact ((Option.some.injEq _ _).mp hm).symm
        subst this
        have hinv := ih.2 m hmm
        have hcreator : m.creator_id ≠ none := by
          rw [missionInv] at hinv
          exact hinv.mpr (by rw [hst]; exact fun hco => by cases hco)
        constructor
        · intro _
          exact fun hco => by cases hco
        · intro _
          exact hcreator
    | verify env a mid now =>
      rcases verifyPOST_db env d a mid now with h | ⟨m, hm, hst, h⟩
      · rw [h]; exact ih
      · rw [h]
        refine dbInv_update d d.submissions mid _ (fun mm => rfl) ih ?_
        intro mm hmm hbeq
        have hfound := find?_eq_of_mem_nodup d.missions mid ih.1 mm hmm hbeq
        have : m = mm := by
          rw [show findMission d mid = d.missions.find? (fun x => x.id == mid) from rfl]
            at hm
          rw [hfound] at hm
          exact ((Option.some.injEq _ _).mp hm).symm
        subst this
        have hinv := ih.2 m hmm
        have hcreator : m.creator_id ≠ none := by
          rw [missionInv] at hinv
          exact hinv.mpr (by rw [hst]; exact fun hco => by cases hco)
        refine ⟨fun _ => ?_, fun _ => hcreator⟩
        simp
    | payout env a mid tr now =>
      rcases payoutPOST_db env d a mid tr now with h | ⟨m, hm, hst, h⟩
      · rw [h]; exact ih
      · rw [h]
        refine dbInv_update d d.submissions mid _ (fun mm => rfl) ih ?_
        intro mm hmm hbeq
        have hfound := find?_eq_of_mem_nodup d.missions mid ih.1 mm hmm hbeq
        have : m = mm := by
          rw [show findMission d mid = d.missions.find? (fun x => x.id == mid) from rfl]
            at hm
          rw [hfound] at hm
          exact ((Option.some.injEq _ _).mp hm).symm
        subst this
        have hinv := ih.2 m hmm
        have hcreator : m.creator_id ≠ none := by
          rw [missionInv] at hinv
          exact hinv.mpr (by rw [hst]; exact fun hco => by cases hco)
        refine ⟨fun _ => ?_, fun _ => hcreator⟩
        simp
    | fund env a cidP pi =>
      exact dbInv_of_missions_eq d _ (fundPOST_missions env d a cidP pi) ih

/-- C9: in every reachable mission record the assignee reference
(`creator_id`) is non-null exactly when the state is not OPEN: creation
yields OPEN with a null assignee, accept sets the assignee together with
the OPEN→ACCEPTED write, and no later operation nulls the assignee or
returns the state to OPEN. -/
theorem mission_assignee_invariant (db : Db) (h : ReachableDb db) :
    ∀ m ∈ db.missions, (m.creator_id ≠ none ↔ m.state ≠ .OPEN) :=
  (reachable_dbInv db h).2

/-- Witness for C9: create a mission, then accept it, starting from a
store with an artist and a campaign; the invariant holds for the
resulting store. -/
theorem mission_assignee_invariant_witness :
    ((acceptPOST ⟨true, true, none⟩
        (createMissionPOST ⟨true, true, none⟩
          ⟨[⟨1, some "a1", some .ARTIST, none⟩],
           [⟨1, 1, 50000, "usd", none, .PENDING, 0⟩], [], []⟩
          (some "a1") "1" 500 "m1" 1).2
        (some "c1") "m1" 2).2.missions.all
      (fun m => decide (m.creator_id ≠ none ↔ m.state ≠ .OPEN))) = true := by
  rw [List.all_eq_true]
  intro m hm
  exact decide_eq_true
    (mission_assignee_invariant _
      (ReachableDb.step
        (ReachableDb.step
          (ReachableDb.init [⟨1, some "a1", some .ARTIST, none⟩]
            [⟨1, 1, 50000, "usd", none, .PENDING, 0⟩] [])
          (DbStep.create ⟨true, true, none⟩ (some "a1") "1" 500 "m1" 1
            (fun m hm => absurd hm (List.not_mem_nil m))))
        (DbStep.accept ⟨true, true, none⟩ (some "c1") "m1" 2))
      m hm)

/-! ### Keyset pagination completeness -/

theorem buildCursorWhere_eq_orderByBefore {α : Type} [LinearOrder α] [DecidableEq α]
    (s : SortOption) (c r : PRow α) :
    buildCursorWhere s c r = orderByBefore s c r := by
  cases s <;> rfl

theorem orderByBefore_irrefl {α : Type} [LinearOrder α] [DecidableEq α]
    (s : SortOption) (a : PRow α) : orderByBefore s a a = false := by
  cases s <;> simp [orderByBefore]

theorem orderByBefore_asymm {α : Type} [LinearOrder α] [DecidableEq α]
    (s : SortOption) (a b : PRow α) (h : orderByBefore s a b = true) :
    orderByBefore s b a = false := by
  rw [Bool.eq_false_iff]
  intro h'
  cases s <;>
    simp only [orderByBefore, gt_iff_lt, Bool.or_eq_true, Bool.and_eq_true,
      decide_eq_true_eq] at h h'
  case created_at_desc =>
    rcases h with h1 | ⟨he, hy⟩ <;> rcases h' with h1' | ⟨he', hy'⟩
    · omega
    · omega
    · omega
    · exact lt_asymm hy hy'
  case created_at_asc =>
    rcases h with h1 | ⟨he, hy⟩ <;> rcases h' with h1' | ⟨he', hy'⟩
    · omega
    · omega
    · omega
    · exact lt_asymm hy hy'
  case id_desc =>
    rcases h with h1 | ⟨he, hy⟩ <;> rcases h' with h1' | ⟨he', hy'⟩
    · exact lt_asymm h1 h1'
    · exact absurd h1 (by rw [he']; exact lt_irrefl _)
    · exact absurd h1' (by rw [he]; exact lt_irrefl _)
    · omega
  case id_asc =>
    rcases h with h1 | ⟨he, hy⟩ <;> rcases h' with h1' | ⟨he', hy'⟩
    · exact lt_asymm h1 h1'
    · exact absurd h1 (by rw [he']; exact lt_irrefl _)
    · exact absurd h1' (by rw [he]; exact lt_irrefl _)
    · omega

/-- Filtering a sorted snapshot with the cursor predicate built from an
element keeps exactly the suffix strictly past that element. -/
theorem filter_after_sorted {α : Type} [LinearOrder α] [DecidableEq α]
    (s : SortOption) (l₁ l₂ : List (PRow α)) (c : PRow α)
    (hp : (l₁ ++ c :: l₂).Pairwise (fun a b => orderByBefore s a b = true)) :
    (l₁ ++ c :: l₂).filter (fun r => buildCursorWhere s c r) = l₂ := by
  obtain ⟨hp1, hp2, hcross⟩ := List.pairwise_append.mp hp
  obtain ⟨hc2, hp3⟩ := List.pairwise_cons.mp hp2
  rw [List.filter_append]
  have h1 : l₁.filter (fun r => buildCursorWhere s c r) = [] := by
    rw [List.filter_eq_nil_iff]
    intro x hx
    have hb : orderByBefore s x c = true := hcross x hx c (List.mem_cons_self c l₂)
    rw [buildCursorWhere_eq_orderByBefore]
    simp [orderByBefore_asymm s x c hb]
  have h2 : (c :: l₂).filter (fun r => buildCursorWhere s c r) = l₂ := by
    have hcc : buildCursorWhere s c c = false := by
      rw [buildCursorWhere_eq_orderByBefore]
      exact orderByBefore_irrefl s c
    have hl2 : l₂.filter (fun r => buildCursorWhere s c r) = l₂ :=
      List.filter_eq_self.mpr (fun x hx => by
        rw [buildCursorWhere_eq_orderByBefore]
        exact hc2 x hx)
    simp [List.filter_cons, hcc, hl2]
  rw [h1, h2, List.nil_append]

/-- Following `next_cursor` with the cursor standing at index `d - 1`
returns exactly the suffix `l.drop d` of the sorted snapshot. -/
theorem collectPages_eq_drop {α : Type} [LinearOrder α] [DecidableEq α]
    (s : SortOption) (l : List (PRow α)) (limit : Nat) (hlim : 1 ≤ limit)
    (hp : l.Pairwise (fun a b => orderByBefore s a b = true)) :
    ∀ fuel d (cursor : Option (PRow α)),
      (cursor = none ∧ d = 0 ∨
        ∃ c, cursor = some c ∧ 0 < d ∧ d ≤ l.length ∧ l[d-1]? = some c) →
      l.length - d < fuel →
      collectPages s l limit cursor fuel = l.drop d := by
  intro fuel
  induction fuel with
  | zero => intro d cursor _ hf; omega
  | succ f ih =>
    intro d cursor hcur hf
    have hpage : pageQuery s l cursor limit = (l.drop d).take (limit + 1) := by
      rcases hcur with ⟨rfl, rfl⟩ | ⟨c, rfl, hd0, hdle, hget⟩
      · simp [pageQuery]
      · simp only [pageQuery]
        have hd1 : d - 1 < l.length := by omega
        have hgetc : l[d-1] = c := by
          rw [List.getElem?_eq_getElem hd1] at hget
          exact (Option.some.injEq _ _).mp hget
        have hdecomp : l = l.take (d-1) ++ c :: l.drop d := by
          conv_lhs => rw [← List.take_append_drop (d-1) l]
          rw [List.drop_eq_getElem_cons hd1, hgetc,
            show d - 1 + 1 = d from by omega]
        have hfil : l.filter (fun r => buildCursorWhere s c r) = l.drop d := by
          conv_lhs => rw [hdecomp]
          exact filter_after_sorted s (l.take (d-1)) (l.drop d) c (hdecomp ▸ hp)
        rw [hfil]
    by_cases hbig : limit < l.length - d
    · have hlen_take : ((l.drop d).take (limit+1)).length = limit + 1 := by
        rw [List.length_take, List.length_drop]
        exact Nat.min_eq_left (by omega)
      have hdata : ((l.drop d).take (limit+1)).take limit = (l.drop d).take limit := by
        rw [List.take_take]
        congr 1
        exact Nat.min_eq_left (by omega)
      have hdata_len : ((l.drop d).take limit).length = limit := by
        rw [List.length_take, List.length_drop]
        exact Nat.min_eq_left (by omega)
      have hlast : ((l.drop d).take limit).getLast? = l[d + (limit - 1)]? := by
        rw [List.getLast?_eq_getElem?, hdata_len, List.getElem?_take,
          if_pos (by omega), List.getElem?_drop]
      have hc'ex : d + (limit - 1) < l.length := by omega
      have hc' : l[d + (limit - 1)]? = some (l.get ⟨d + (limit - 1), hc'ex⟩) := by
        rw [List.getElem?_eq_getElem hc'ex]
        rfl
      have hdata_ne : ((l.drop d).take limit).isEmpty = false := by
        cases hcase : (l.drop d).take limit with
        | nil => rw [hcase] at hdata_len; simp at hdata_len; omega
        | cons x xs => rfl
      have hgt : limit < ((l.drop d).take (limit + 1)).length := by
        rw [hlen_take]; omega
      have hb1 : decide (((l.drop d).take (limit + 1)).length > limit) = true :=
        decide_eq_true hgt
      have hroute : routePage s l cursor limit =
          ((l.drop d).take limit, some (l.get ⟨d + (limit - 1), hc'ex⟩)) := by
        simp only [routePage, hpage]
        rw [if_pos hb1, hdata]
        rw [if_pos (show (decide (((l.drop d).take (limit + 1)).length > limit) &&
            !((l.drop d).take limit).isEmpty) = true by
          rw [hb1, hdata_ne]; rfl)]
        rw [hlast, hc']
      have hstep : collectPages s l limit cursor (f+1) =
          (l.drop d).take limit ++
            collectPages s l limit (some (l.get ⟨d + (limit - 1), hc'ex⟩)) f := by
        simp only [collectPages, hroute]
      rw [hstep]
      rw [ih (d + limit) (some (l.get ⟨d + (limit - 1), hc'ex⟩))
        (Or.inr ⟨l.get ⟨d + (limit - 1), hc'ex⟩, rfl, by omega, by omega, by
          rw [show d + limit - 1 = d + (limit - 1) from by omega]
          exact hc'⟩)
        (by omega)]
      rw [← List.drop_drop]
      exact List.take_append_drop limit (l.drop d)
    · have hres : pageQuery s l cursor limit = l.drop d := by
        rw [hpage]
        exact List.take_of_length_le (by rw [List.length_drop]; omega)
      have hlen : (l.drop d).length ≤ limit := by rw [List.length_drop]; omega
      have hb0 : decide ((l.drop d).length > limit) = false :=
        decide_eq_false (by omega)
      have hroute : routePage s l cursor limit = (l.drop d, none) := by
        simp only [routePage, hres]
        rw [if_neg (show ¬(decide ((l.drop d).length > limit) = true) by
          rw [hb0]; exact Bool.false_ne_true)]
        rw [if_neg (show ¬((decide ((l.drop d).length > limit) &&
            !(l.drop d).isEmpty) = true) by
          rw [hb0]; simp)]
      simp only [collectPages, hroute]

/-- C6: for every snapshot listed in one of the four sort orders and every
`limit` in `[1, 100]`, requesting the first page and then repeatedly
following `next_cursor` returns exactly the snapshot's rows, in the sort
order, with no row duplicated and none omitted. -/
theorem pagination_completeness {α : Type} [LinearOrder α] [DecidableEq α]
    (s : SortOption) (l : List (PRow α))
    (hp : l.Pairwise (fun a b => orderByBefore s a b = true))
    (limit : Nat) (h1 : 1 ≤ limit) (_h100 : limit ≤ 100) :
    collectPages s l limit none (l.length + 1) = l := by
  have h := collectPages_eq_drop s l limit h1 hp (l.length + 1) 0 none
    (Or.inl ⟨rfl, rfl⟩) (by omega)
  simpa using h

/-- Witness for C6: a 4-row snapshot in `created_at DESC, id DESC` order
(with a timestamp tie broken by id), paged with limit 2. -/
theorem pagination_completeness_witness :
    collectPages .created_at_desc
      ([⟨3, 10⟩, ⟨2, 11⟩, ⟨2, 5⟩, ⟨1, 99⟩] : List (PRow Nat)) 2 none 5 =
      [⟨3, 10⟩, ⟨2, 11⟩, ⟨2, 5⟩, ⟨1, 99⟩] :=
  pagination_completeness .created_at_desc
    [⟨3, 10⟩, ⟨2, 11⟩, ⟨2, 5⟩, ⟨1, 99⟩] (by decide) 2 (by decide) (by decide)

/-! ### Cursor codec: character and digit basics -/

theorem charToNat_ofNat {n : Nat} (h : Nat.isValidChar n) :
    (Char.ofNat n).toNat = n := by
  simp [Char.ofNat, h, Char.ofNatAux, Char.toNat]
  rfl

theorem charToNat_ofNat_small {n : Nat} (h : n < 55296) :
    (Char.ofNat n).toNat = n :=
  charToNat_ofNat (Or.inl h)

theorem char_eq_of_toNat {c : Char} {n : Nat} (h : c.toNat = n) :
    c = Char.ofNat n := by
  rw [← h, Char.ofNat_toNat]

theorem natDigits_all_digits (n : Nat) :
    ∀ ch ∈ natDigits n, isDigitChar ch = true := by
  induction n using Nat.strong_induction_on with
  | _ n ih =>
    rw [natDigits]
    by_cases h : n < 10
    · rw [dif_pos h]
      intro ch hch
      rw [List.mem_singleton] at hch
      subst hch
      have : (Char.ofNat (48 + n)).toNat = 48 + n := charToNat_ofNat_small (by omega)
      simp [isDigitChar, this]
      omega
    · rw [dif_neg h]
      intro ch hch
      rcases List.mem_append.mp hch with hch' | hch'
      · exact ih (n / 10) (Nat.div_lt_self (by omega) (by omega)) ch hch'
      · rw [List.mem_singleton] at hch'
        subst hch'
        have : (Char.ofNat (48 + n % 10)).toNat = 48 + n % 10 :=
          charToNat_ofNat_small (by omega)
        simp [isDigitChar, this]
        omega

theorem natDigits_ne_nil (n : Nat) : natDigits n ≠ [] := by
  rw [natDigits]
  by_cases h : n < 10
  · rw [dif_pos h]; exact List.cons_ne_nil _ _
  · rw [dif_neg h]
    intro hc
    exact List.cons_ne_nil _ _ (List.append_eq_nil.mp hc).2

theorem digitsVal_natDigits_acc (n : Nat) :
    ∀ acc, (natDigits n).foldl (fun a c => a * 10 + (c.toNat - 48)) acc =
      acc * 10 ^ (natDigits n).length + n := by
  induction n using Nat.strong_induction_on with
  | _ n ih =>
    intro acc
    rw [natDigits]
    by_cases h : n < 10
    · rw [dif_pos h]
      simp [charToNat_ofNat_small (show 48 + n < 55296 by omega)]
    · rw [dif_neg h]
      rw [List.foldl_append]
      rw [ih (n / 10) (Nat.div_lt_self (by omega) (by omega)) acc]
      simp only [List.foldl_cons, List.foldl_nil, List.length_append,
        List.length_singleton]
      rw [charToNat_ofNat_small (show 48 + n % 10 < 55296 by omega)]
      rw [pow_succ]
      have hmod : 48 + n % 10 - 48 = n % 10 := by omega
      rw [hmod]
      have := Nat.div_add_mod n 10
      ring_nf
      omega

theorem digitsVal_natDigits (n : Nat) : digitsVal (natDigits n) = n := by
  have := digitsVal_natDigits_acc n 0
  simpa [digitsVal] using this

theorem takeWhile_append_all {p : Char → Bool} (l rest : List Char)
    (h : ∀ c ∈ l, p c = true) :
    (l ++ rest).takeWhile p = l ++ rest.takeWhile p := by
  induction l with
  | nil => rfl
  | cons hd tl ih =>
    have hhd : p hd = true := h hd (List.mem_cons_self hd tl)
    simp only [List.cons_append, List.takeWhile_cons, hhd, if_true]
    rw [ih (fun c hc => h c (List.mem_cons_of_mem hd hc))]

theorem dropWhile_append_all {p : Char → Bool} (l rest : List Char)
    (h : ∀ c ∈ l, p c = true) :
    (l ++ rest).dropWhile p = rest.dropWhile p := by
  induction l with
  | nil => rfl
  | cons hd tl ih =>
    have hhd : p hd = true := h hd (List.mem_cons_self hd tl)
    simp only [List.cons_append, List.dropWhile_cons, hhd, if_true]
    exact ih (fun c hc => h c (List.mem_cons_of_mem hd hc))

theorem takeWhile_not_head {p : Char → Bool} (rest : List Char)
    (h : ∀ c ∈ rest.head?, p c = false) : rest.takeWhile p = [] := by
  cases rest with
  | nil => rfl
  | cons hd tl =>
    have : p hd = false := h hd rfl
    simp [List.takeWhile_cons, this]

theorem dropWhile_not_head {p : Char → Bool} (rest : List Char)
    (h : ∀ c ∈ rest.head?, p c = false) : rest.dropWhile p = rest := by
  cases rest with
  | nil => rfl
  | cons hd tl =>
    have : p hd = false := h hd rfl
    simp [List.dropWhile_cons, this]

theorem parseJNat_natDigits (n : Nat) (rest : List Char)
    (hrest : ∀ c ∈ rest.head?, isDigitChar c = false) :
    parseJNat (natDigits n ++ rest) = some (n, rest) := by
  unfold parseJNat
  rw [takeWhile_append_all _ _ (natDigits_all_digits n),
    takeWhile_not_head rest hrest, List.append_nil]
  rw [dropWhile_append_all _ _ (natDigits_all_digits n),
    dropWhile_not_head rest hrest]
  have hne : ¬(natDigits n).isEmpty = true := by
    cases hcase : natDigits n with
    | nil => exact absurd hcase (natDigits_ne_nil n)
    | cons x xs => simp
  simp only [if_neg hne, digitsVal_natDigits]

theorem natDigits_cons (n : Nat) :
    ∃ d ds, natDigits n = d :: ds ∧ isDigitChar d = true := by
  cases hcase : natDigits n with
  | nil => exact absurd hcase (natDigits_ne_nil n)
  | cons d ds =>
    exact ⟨d, ds, rfl, natDigits_all_digits n d
      (by rw [hcase]; exact List.mem_cons_self d ds)⟩

theorem parseJNum_intChars (n : Int) (rest : List Char)
    (hrest : ∀ c ∈ rest.head?, isDigitChar c = false) :
    parseJNum (intChars n ++ rest) = some (n, rest) := by
  unfold intChars
  by_cases h : n < 0
  · rw [if_pos h]
    show parseJNum ('-' :: (natDigits n.natAbs ++ rest)) = some (n, rest)
    unfold parseJNum
    split
    · rename_i r heq
      injection heq with h1 h2
      rw [← h2]
      rw [parseJNat_natDigits n.natAbs rest hrest]
      simp only [Option.map_some']
      have hval : -(n.natAbs : Int) = n := by omega
      rw [hval]
    · rename_i hne
      exact (hne (natDigits n.natAbs ++ rest) rfl).elim
  · rw [if_neg h]
    obtain ⟨d, ds, hd, hdig⟩ := natDigits_cons n.natAbs
    rw [hd, List.cons_append]
    have hdne : d ≠ '-' := by
      intro he
      subst he
      simp [isDigitChar] at hdig
    unfold parseJNum
    split
    · rename_i r heq
      injection heq with h1 h2
      exact absurd h1 hdne
    · rw [← List.cons_append, ← hd]
      rw [parseJNat_natDigits n.natAbs rest hrest]
      simp only [Option.map_some']
      have hval : (n.natAbs : Int) = n := by omega
      rw [hval]

theorem hexVal_hexDigitChar : ∀ v < 16, hexVal (hexDigitChar v) = some v := by
  decide

/-- The JSON string-literal reader inverts `JSON.stringify`-style
escaping, for arbitrary source characters. -/
theorem parseJStringAux_escape (s : List Char) :
    ∀ (fuel : Nat) (acc rest : List Char), s.length < fuel →
    parseJStringAux fuel acc (s.flatMap escapeChar ++ ('"' :: rest)) =
      some (acc.reverse ++ s, rest) := by
  induction s with
  | nil =>
    intro fuel acc rest hf
    match fuel, hf with
    | fuel + 1, _ =>
      show parseJStringAux (fuel + 1) acc ('"' :: rest) = _
      simp [parseJStringAux]
  | cons c cs ih =>
    intro fuel acc rest hf
    match fuel, hf with
    | fuel + 1, hf =>
      have hf2 : cs.length < fuel := by
        simp only [List.length_cons] at hf
        omega
      rw [List.flatMap_cons, List.append_assoc]
      by_cases h1 : c = '"'
      · subst h1
        show parseJStringAux (fuel + 1) acc
          ('\\' :: '"' :: (cs.flatMap escapeChar ++ '"' :: rest)) = _
        have hstep : ∀ X, parseJStringAux (fuel + 1) acc ('\\' :: '"' :: X) =
            parseJStringAux fuel ('"' :: acc) X := fun _ => rfl
        rw [hstep, ih fuel ('"' :: acc) rest hf2]
        simp
      · by_cases h2 : c = '\\'
        · subst h2
          show parseJStringAux (fuel + 1) acc
            ('\\' :: '\\' :: (cs.flatMap escapeChar ++ '"' :: rest)) = _
          have hstep : ∀ X, parseJStringAux (fuel + 1) acc ('\\' :: '\\' :: X) =
              parseJStringAux fuel ('\\' :: acc) X := fun _ => rfl
          rw [hstep, ih fuel ('\\' :: acc) rest hf2]
          simp
        · by_cases h3 : c.toNat < 32
          · have hesc : escapeChar c =
                (if c.toNat = 8 then ['\\', 'b']
                 else if c.toNat = 9 then ['\\', 't']
                 else if c.toNat = 10 then ['\\', 'n']
                 else if c.toNat = 12 then ['\\', 'f']
                 else if c.toNat = 13 then ['\\', 'r']
                 else ['\\', 'u', '0', '0', hexDigitChar (c.toNat / 16),
                   hexDigitChar (c.toNat % 16)]) := by
              unfold escapeChar
              rw [if_neg h1, if_neg h2, if_pos h3]
            by_cases h8 : c.toNat = 8
            · rw [hesc, if_pos h8]
              show parseJStringAux (fuel + 1) acc
                ('\\' :: 'b' :: (cs.flatMap escapeChar ++ '"' :: rest)) = _
              have hstep : ∀ X, parseJStringAux (fuel + 1) acc ('\\' :: 'b' :: X) =
                  parseJStringAux fuel (Char.ofNat 8 :: acc) X := fun _ => rfl
              rw [hstep, ih fuel (Char.ofNat 8 :: acc) rest hf2]
              rw [show Char.ofNat 8 = c from (char_eq_of_toNat h8).symm]
              simp
            · by_cases h9 : c.toNat = 9
              · rw [hesc, if_neg h8, if_pos h9]
                show parseJStringAux (fuel + 1) acc
                  ('\\' :: 't' :: (cs.flatMap escapeChar ++ '"' :: rest)) = _
                have hstep : ∀ X, parseJStringAux (fuel + 1) acc ('\\' :: 't' :: X) =
                    parseJStringAux fuel ('\t' :: acc) X := fun _ => rfl
                rw [hstep, ih fuel ('\t' :: acc) rest hf2]
                rw [show ('\t' : Char) = c from (char_eq_of_toNat h9).symm]
                simp
              · by_cases h10 : c.toNat = 10
                · rw [hesc, if_neg h8, if_neg h9, if_pos h10]
                  show parseJStringAux (fuel + 1) acc
                    ('\\' :: 'n' :: (cs.flatMap escapeChar ++ '"' :: rest)) = _
                  have hstep : ∀ X, parseJStringAux (fuel + 1) acc ('\\' :: 'n' :: X) =
                      parseJStringAux fuel ('\n' :: acc) X := fun _ => rfl
                  rw [hstep, ih fuel ('\n' :: acc) rest hf2]
                  rw [show ('\n' : Char) = c from (char_eq_of_toNat h10).symm]
                  simp
                · by_cases h12 : c.toNat = 12
                  · rw [hesc, if_neg h8, if_neg h9, if_neg h10, if_pos h12]
                    show parseJStringAux (fuel + 1) acc
                      ('\\' :: 'f' :: (cs.flatMap escapeChar ++ '"' :: rest)) = _
                    have hstep : ∀ X, parseJStringAux (fuel + 1) acc ('\\' :: 'f' :: X) =
                        parseJStringAux fuel (Char.ofNat 12 :: acc) X := fun _ => rfl
                    rw [hstep, ih fuel (Char.ofNat 12 :: acc) rest hf2]
                    rw [show Char.ofNat 12 = c from (char_eq_of_toNat h12).symm]
                    simp
                  · by_cases h13 : c.toNat = 13
                    · rw [hesc, if_neg h8, if_neg h9, if_neg h10, if_neg h12,
                        if_pos h13]
                      show parseJStringAux (fuel + 1) acc
                        ('\\' :: 'r' :: (cs.flatMap escapeChar ++ '"' :: rest)) = _
                      have hstep : ∀ X, parseJStringAux (fuel + 1) acc ('\\' :: 'r' :: X) =
                          parseJStringAux fuel (Char.ofNat 13 :: acc) X := fun _ => rfl
                      rw [hstep, ih fuel (Char.ofNat 13 :: acc) rest hf2]
                      rw [show Char.ofNat 13 = c from (char_eq_of_toNat h13).symm]
                      simp
                    · rw [hesc, if_neg h8, if_neg h9, if_neg h10, if_neg h12,
                        if_neg h13]
                      show parseJStringAux (fuel + 1) acc
                        ('\\' :: 'u' :: '0' :: '0' :: hexDigitChar (c.toNat / 16) ::
                          hexDigitChar (c.toNat % 16) ::
                          (cs.flatMap escapeChar ++ '"' :: rest)) = _
                      have hstep : ∀ (hx1 hx2 : Char) (X : List Char),
                          parseJStringAux (fuel + 1) acc
                            ('\\' :: 'u' :: '0' :: '0' :: hx1 :: hx2 :: X) =
                          (match hexVal '0', hexVal '0', hexVal hx1, hexVal hx2 with
                           | some v1, some v2, some v3, some v4 =>
                             parseJStringAux fuel
                               (Char.ofNat (v1 * 4096 + v2 * 256 + v3 * 16 + v4) :: acc) X
                           | _, _, _, _ => none) := fun _ _ _ => rfl
                      rw [hstep, hexVal_hexDigitChar (c.toNat / 16) (by omega),
                        hexVal_hexDigitChar (c.toNat % 16) (by omega)]
                      show parseJStringAux fuel
                        (Char.ofNat (0 * 4096 + 0 * 256 + c.toNat / 16 * 16 +
                          c.toNat % 16) :: acc)
                        (cs.flatMap escapeChar ++ '"' :: rest) = _
                      rw [show 0 * 4096 + 0 * 256 + c.toNat / 16 * 16 + c.toNat % 16 =
                        c.toNat from by omega]
                      rw [ih fuel (Char.ofNat c.toNat :: acc) rest hf2]
                      rw [Char.ofNat_toNat]
                      simp
          · have hesc : escapeChar c = [c] := by
              unfold escapeChar
              rw [if_neg h1, if_neg h2, if_neg h3]
            rw [hesc]
            show parseJStringAux (fuel + 1) acc
              (c :: (cs.flatMap escapeChar ++ '"' :: rest)) = _
            simp only [parseJStringAux]
            rw [if_neg h1, if_neg h2, if_neg h3]
            rw [ih fuel (c :: acc) rest hf2]
            simp

/-! ### Base64 and UTF-8 round trips -/

theorem b64Val_b64Char : ∀ n < 64, b64Val (b64Char n) = some n := by decide

theorem b64Val_pad : b64Val ('=') = none := by decide

theorem base64_roundtrip : ∀ bs : List Nat, (∀ b ∈ bs, b < 256) →
    b64BytesOf ((base64EncodeChars bs).filterMap b64Val) = bs
  | [], _ => rfl
  | [x], h => by
    have hx : x < 256 := h x (by simp)
    rw [show base64EncodeChars [x] =
      [b64Char (x / 4), b64Char (x % 4 * 16), '=', '='] from rfl]
    have e1 := b64Val_b64Char (x / 4) (by omega)
    have e2 := b64Val_b64Char (x % 4 * 16) (by omega)
    simp only [List.filterMap_cons, e1, e2, b64Val_pad, List.filterMap_nil]
    rw [show b64BytesOf [x / 4, x % 4 * 16] = [x / 4 * 4 + x % 4 * 16 / 16] from rfl]
    congr 1
    omega
  | [x, y], h => by
    have hx : x < 256 := h x (by simp)
    have hy : y < 256 := h y (by simp)
    rw [show base64EncodeChars [x, y] =
      [b64Char (x / 4), b64Char (x % 4 * 16 + y / 16), b64Char (y % 16 * 4), '='] from rfl]
    have e1 := b64Val_b64Char (x / 4) (by omega)
    have e2 := b64Val_b64Char (x % 4 * 16 + y / 16) (by omega)
    have e3 := b64Val_b64Char (y % 16 * 4) (by omega)
    simp only [List.filterMap_cons, e1, e2, e3, b64Val_pad, List.filterMap_nil]
    rw [show b64BytesOf [x / 4, x % 4 * 16 + y / 16, y % 16 * 4] =
      [x / 4 * 4 + (x % 4 * 16 + y / 16) / 16,
       (x % 4 * 16 + y / 16) % 16 * 16 + y % 16 * 4 / 4] from rfl]
    have c1 : x / 4 * 4 + (x % 4 * 16 + y / 16) / 16 = x := by omega
    have c2 : (x % 4 * 16 + y / 16) % 16 * 16 + y % 16 * 4 / 4 = y := by omega
    rw [c1, c2]
  | x :: y :: z :: rest, h => by
    have hx : x < 256 := h x (by simp)
    have hy : y < 256 := h y (by simp)
    have hz : z < 256 := h z (by simp)
    rw [show base64EncodeChars (x :: y :: z :: rest) =
      b64Char (x / 4) :: b64Char (x % 4 * 16 + y / 16) ::
        b64Char (y % 16 * 4 + z / 64) :: b64Char (z % 64) ::
        base64EncodeChars rest from rfl]
    have e1 := b64Val_b64Char (x / 4) (by omega)
    have e2 := b64Val_b64Char (x % 4 * 16 + y / 16) (by omega)
    have e3 := b64Val_b64Char (y % 16 * 4 + z / 64) (by omega)
    have e4 := b64Val_b64Char (z % 64) (by omega)
    simp only [List.filterMap_cons, e1, e2, e3, e4]
    rw [show ∀ a b c d t, b64BytesOf (a :: b :: c :: d :: t) =
      (a * 4 + b / 16) :: (b % 16 * 16 + c / 4) :: (c % 4 * 64 + d) :: b64BytesOf t
      from fun _ _ _ _ _ => rfl]
    have c1 : x / 4 * 4 + (x % 4 * 16 + y / 16) / 16 = x := by omega
    have c2 : (x % 4 * 16 + y / 16) % 16 * 16 + (y % 16 * 4 + z / 64) / 4 = y := by
      omega
    have c3 : (y % 16 * 4 + z / 64) % 4 * 64 + z % 64 = z := by omega
    rw [c1, c2, c3,
      base64_roundtrip rest (fun b hb => h b (by simp [hb]))]

theorem utf8EncodeChar_lt (c : Char) : ∀ b ∈ utf8EncodeChar c, b < 256 := by
  intro b hb
  have hv : Nat.isValidChar c.toNat := c.valid
  have hlt : c.toNat < 1114112 := by
    rcases hv with h | ⟨_, h⟩ <;> omega
  simp only [utf8EncodeChar] at hb
  split at hb
  · simp at hb; omega
  · split at hb
    · simp at hb; omega
    · split at hb
      · simp at hb; omega
      · simp at hb; omega

theorem utf8Encode_lt (cs : List Char) : ∀ b ∈ utf8Encode cs, b < 256 := by
  induction cs with
  | nil => intro b hb; cases hb
  | cons c cs ih =>
    intro b hb
    rw [show utf8Encode (c :: cs) = utf8EncodeChar c ++ utf8Encode cs from rfl]
      at hb
    rcases List.mem_append.mp hb with hb' | hb'
    · exact utf8EncodeChar_lt c b hb'
    · exact ih b hb'

theorem utf8DecodeAux_encode : ∀ (cs : List Char) (fuel : Nat), cs.length ≤ fuel →
    utf8DecodeAux fuel (utf8Encode cs) = cs := by
  intro cs
  induction cs with
  | nil =>
    intro fuel _
    cases fuel <;> rfl
  | cons c cs ih =>
    intro fuel hf
    match fuel, hf with
    | fuel + 1, hf =>
      have hf2 : cs.length ≤ fuel := by
        simp only [List.length_cons] at hf
        omega
      have hv : Nat.isValidChar c.toNat := c.valid
      have hlt : c.toNat < 1114112 := by
        rcases hv with h | ⟨_, h⟩ <;> omega
      have hsur : c.toNat < 55296 ∨ 57344 ≤ c.toNat := by
        rcases hv with h | ⟨h, _⟩ <;> omega
      rw [show utf8Encode (c :: cs) = utf8EncodeChar c ++ utf8Encode cs from rfl]
      by_cases hr1 : c.toNat < 128
      · rw [show utf8EncodeChar c = [c.toNat] from by
          unfold utf8EncodeChar; rw [if_pos hr1]]
        show utf8DecodeAux (fuel + 1) (c.toNat :: utf8Encode cs) = c :: cs
        simp only [utf8DecodeAux]
        rw [if_pos hr1, ih fuel hf2, Char.ofNat_toNat]
      · by_cases hr2 : c.toNat < 2048
        · rw [show utf8EncodeChar c = [192 + c.toNat / 64, 128 + c.toNat % 64] from by
            unfold utf8EncodeChar; rw [if_neg hr1, if_pos hr2]]
          show utf8DecodeAux (fuel + 1)
            ((192 + c.toNat / 64) :: (128 + c.toNat % 64) :: utf8Encode cs) = c :: cs
          simp only [utf8DecodeAux]
          rw [if_neg (by omega)]
          rw [if_pos (show (194 ≤ 192 + c.toNat / 64 && 192 + c.toNat / 64 ≤ 223) = true
            by simp only [Bool.and_eq_true, decide_eq_true_eq]; omega)]
          rw [if_pos (show isCont (128 + c.toNat % 64) = true by
            simp only [isCont, Bool.and_eq_true, decide_eq_true_eq]; omega)]
          rw [show (192 + c.toNat / 64 - 192) * 64 + (128 + c.toNat % 64 - 128) =
            c.toNat from by omega]
          rw [ih fuel hf2, Char.ofNat_toNat]
        · by_cases hr3 : c.toNat < 65536
          · rw [show utf8EncodeChar c =
              [224 + c.toNat / 4096, 128 + c.toNat / 64 % 64, 128 + c.toNat % 64] from by
              unfold utf8EncodeChar; rw [if_neg hr1, if_neg hr2, if_pos hr3]]
            show utf8DecodeAux (fuel + 1)
              ((224 + c.toNat / 4096) :: (128 + c.toNat / 64 % 64) ::
                (128 + c.toNat % 64) :: utf8Encode cs) = c :: cs
            simp only [utf8DecodeAux]
            rw [if_neg (by omega)]
            rw [if_neg (show ¬((194 ≤ 224 + c.toNat / 4096 &&
                224 + c.toNat / 4096 ≤ 223) = true) by
              simp only [Bool.and_eq_true, decide_eq_true_eq]; omega)]
            rw [if_pos (show (224 ≤ 224 + c.toNat / 4096 &&
                224 + c.toNat / 4096 ≤ 239) = true by
              simp only [Bool.and_eq_true, decide_eq_true_eq]; omega)]
            rw [if_pos (show (isCont (128 + c.toNat / 64 % 64) &&
                isCont (128 + c.toNat % 64)) = true by
              simp only [isCont, Bool.and_eq_true, decide_eq_true_eq]
              omega)]
            rw [show (224 + c.toNat / 4096 - 224) * 4096 +
              (128 + c.toNat / 64 % 64 - 128) * 64 + (128 + c.toNat % 64 - 128) =
              c.toNat from by omega]
            rw [if_pos (show (2048 ≤ c.toNat &&
                !(55296 ≤ c.toNat && c.toNat ≤ 57343)) = true by
              have hin : (decide (55296 ≤ c.toNat) && decide (c.toNat ≤ 57343)) =
                  false := by
                rcases hsur with h | h
                · rw [decide_eq_false (by omega : ¬(55296 ≤ c.toNat)),
                    Bool.false_and]
                · rw [decide_eq_false (by omega : ¬(c.toNat ≤ 57343)),
                    Bool.and_false]
              rw [hin, Bool.not_false, Bool.and_true, decide_eq_true_eq]
              omega)]
            rw [ih fuel hf2, Char.ofNat_toNat]
          · rw [show utf8EncodeChar c =
              [240 + c.toNat / 262144, 128 + c.toNat / 4096 % 64,
               128 + c.toNat / 64 % 64, 128 + c.toNat % 64] from by
              unfold utf8EncodeChar; rw [if_neg hr1, if_neg hr2, if_neg hr3]]
            show utf8DecodeAux (fuel + 1)
              ((240 + c.toNat / 262144) :: (128 + c.toNat / 4096 % 64) ::
                (128 + c.toNat / 64 % 64) :: (128 + c.toNat % 64) ::
                utf8Encode cs) = c :: cs
            simp only [utf8DecodeAux]
            rw [if_neg (by omega)]
            rw [if_neg (show ¬((194 ≤ 240 + c.toNat / 262144 &&
                240 + c.toNat / 262144 ≤ 223) = true) by
              simp only [Bool.and_eq_true, decide_eq_true_eq]; omega)]
            rw [if_neg (show ¬((224 ≤ 240 + c.toNat / 262144 &&
                240 + c.toNat / 262144 ≤ 239) = true) by
              simp only [Bool.and_eq_true, decide_eq_true_eq]; omega)]
            rw [if_pos (show (240 ≤ 240 + c.toNat / 262144 &&
                240 + c.toNat / 262144 ≤ 244) = true by
              simp only [Bool.and_eq_true, decide_eq_true_eq]; omega)]
            rw [if_pos (show (isCont (128 + c.toNat / 4096 % 64) &&
                isCont (128 + c.toNat / 64 % 64) &&
                isCont (128 + c.toNat % 64)) = true by
              simp only [isCont, Bool.and_eq_true, decide_eq_true_eq]
              omega)]
            rw [show (240 + c.toNat / 262144 - 240) * 262144 +
              (128 + c.toNat / 4096 % 64 - 128) * 4096 +
              (128 + c.toNat / 64 % 64 - 128) * 64 + (128 + c.toNat % 64 - 128) =
              c.toNat from by omega]
            rw [if_pos (show (65536 ≤ c.toNat && c.toNat ≤ 1114111) = true by
              simp only [Bool.and_eq_true, decide_eq_true_eq]; omega)]
            rw [ih fuel hf2, Char.ofNat_toNat]

/-! ### Parsing the printed cursor -/

theorem skipWs_cons (l : List Char) {c : Char} (h : jsonWs c = false) :
    skipWs (c :: l) = c :: l := by
  simp [skipWs, List.dropWhile_cons, h]

theorem escapeChar_length_pos (c : Char) : 1 ≤ (escapeChar c).length := by
  unfold escapeChar
  repeat' split
  all_goals simp

theorem flatMap_escape_length (s : List Char) :
    s.length ≤ (s.flatMap escapeChar).length := by
  induction s with
  | nil => simp
  | cons c cs ih =>
    rw [List.flatMap_cons, List.length_append, List.length_cons]
    have := escapeChar_length_pos c
    omega

theorem parseJValAux_str (s : String) (rest : List Char) (fuel : Nat) :
    parseJValAux (fuel + 1) ('"' :: (escapeString s ++ '"' :: rest)) =
      some (.jstr s, rest) := by
  have hstep : ∀ X : List Char, parseJValAux (fuel + 1) ('"' :: X) =
      (parseJStringAux (X.length + 1) [] X).map
        (fun p => (JVal.jstr ⟨p.1⟩, p.2)) := fun _ => rfl
  rw [hstep]
  have hlen : s.data.length < (escapeString s ++ '"' :: rest).length + 1 := by
    have h1 : s.data.length ≤ (escapeString s).length := flatMap_escape_length s.data
    rw [List.length_append]
    omega
  have h : parseJStringAux ((escapeString s ++ '"' :: rest).length + 1) []
      (escapeString s ++ '"' :: rest) = some (s.data, rest) :=
    parseJStringAux_escape s.data ((escapeString s ++ '"' :: rest).length + 1)
      [] rest hlen
  rw [h]
  rfl

theorem char_ne_of_toNat_ne {a b : Char} (h : a.toNat ≠ b.toNat) : a ≠ b :=
  fun he => h (he ▸ rfl)

theorem parseJValAux_num (n : Int) (rest : List Char) (fuel : Nat)
    (hrest : ∀ c ∈ rest.head?, isDigitChar c = false) :
    parseJValAux (fuel + 1) (intChars n ++ rest) = some (.jnum n, rest) := by
  by_cases h : n < 0
  · rw [show intChars n = '-' :: natDigits n.natAbs from by
      unfold intChars; rw [if_pos h], List.cons_append]
    have hstep : ∀ X : List Char, parseJValAux (fuel + 1) ('-' :: X) =
        (parseJNum ('-' :: X)).map (fun p => (JVal.jnum p.1, p.2)) := fun _ => rfl
    rw [hstep]
    rw [show ('-' :: (natDigits n.natAbs ++ rest) : List Char) =
      intChars n ++ rest from by unfold intChars; rw [if_pos h, List.cons_append]]
    rw [parseJNum_intChars n rest hrest]
    rfl
  · obtain ⟨d, ds, hd, hdig⟩ := natDigits_cons n.natAbs
    have hat : intChars n = natDigits n.natAbs := by
      unfold intChars; rw [if_neg h]
    rw [hat, hd, List.cons_append]
    have hdnat : 48 ≤ d.toNat ∧ d.toNat ≤ 57 := by
      simpa [isDigitChar] using hdig
    have hguard : ∀ x : Char, x.toNat < 48 ∨ 57 < x.toNat → d ≠ x := by
      intro x hx he
      rw [he] at hdnat
      omega
    have hws : jsonWs d = false := by
      have h1 : d ≠ ' ' := hguard _ (by decide)
      have h2 : d ≠ '\t' := hguard _ (by decide)
      have h3 : d ≠ '\n' := hguard _ (by decide)
      have h4 : d ≠ '\x0d' := hguard _ (by decide)
      simp [jsonWs, h1, h2, h3, h4]
    have hws2 : skipWs (d :: (ds ++ rest)) = d :: (ds ++ rest) :=
      skipWs_cons _ hws
    simp only [parseJValAux, hws2]
    rw [if_neg (hguard '"' (by decide)), if_neg (hguard '\x7b' (by decide)),
      if_neg (hguard '[' (by decide)), if_neg (hguard 't' (by decide)),
      if_neg (hguard 'f' (by decide)), if_neg (hguard 'n' (by decide))]
    rw [← List.cons_append, ← hd, ← hat, parseJNum_intChars n rest hrest]
    rfl

theorem parseJMembersAux_cursor (ca : String) (idv : CursorId) (fuel : Nat) :
    parseJMembersAux (fuel + 3) []
      ('"' :: ("created_at".data ++ ('"' :: ':' :: '"' ::
        (escapeString ca ++ ('"' :: ',' :: '"' :: 'i' :: 'd' :: '"' :: ':' ::
          (idJsonChars idv ++ ['\x7d'])))))) =
      some (.jobj [("created_at", .jstr ca), ("id", idJVal idv)], []) := by
  have hkey1 : parseJStringAux
      (("created_at".data ++ ('"' :: ':' :: '"' ::
        (escapeString ca ++ ('"' :: ',' :: '"' :: 'i' :: 'd' :: '"' :: ':' ::
          (idJsonChars idv ++ ['\x7d']))))).length + 1) []
      ("created_at".data ++ ('"' :: ':' :: '"' ::
        (escapeString ca ++ ('"' :: ',' :: '"' :: 'i' :: 'd' :: '"' :: ':' ::
          (idJsonChars idv ++ ['\x7d']))))) =
      some ("created_at".data, ':' :: '"' ::
        (escapeString ca ++ ('"' :: ',' :: '"' :: 'i' :: 'd' :: '"' :: ':' ::
          (idJsonChars idv ++ ['\x7d'])))) :=
    parseJStringAux_escape "created_at".data _ [] _
      (by rw [List.length_append]; omega)
  have hws1 : skipWs ('"' :: ("created_at".data ++ ('"' :: ':' :: '"' ::
      (escapeString ca ++ ('"' :: ',' :: '"' :: 'i' :: 'd' :: '"' :: ':' ::
        (idJsonChars idv ++ ['\x7d'])))))) =
      '"' :: ("created_at".data ++ ('"' :: ':' :: '"' ::
      (escapeString ca ++ ('"' :: ',' :: '"' :: 'i' :: 'd' :: '"' :: ':' ::
        (idJsonChars idv ++ ['\x7d']))))) :=
    skipWs_cons _ (by decide)
  simp only [parseJMembersAux, hws1, hkey1]
  have hws2 : skipWs (':' :: '"' ::
      (escapeString ca ++ ('"' :: ',' :: '"' :: 'i' :: 'd' :: '"' :: ':' ::
        (idJsonChars idv ++ ['\x7d'])))) =
      ':' :: '"' :: (escapeString ca ++ ('"' :: ',' :: '"' :: 'i' :: 'd' :: '"' :: ':' ::
        (idJsonChars idv ++ ['\x7d']))) :=
    skipWs_cons _ (by decide)
  simp only [hws2]
  have hval1 : parseJValAux (fuel + 2) ('"' ::
      (escapeString ca ++ ('"' :: (',' :: '"' :: 'i' :: 'd' :: '"' :: ':' ::
        (idJsonChars idv ++ ['\x7d']))))) =
      some (.jstr ca, ',' :: '"' :: 'i' :: 'd' :: '"' :: ':' ::
        (idJsonChars idv ++ ['\x7d'])) :=
    parseJValAux_str ca _ (fuel + 1)
  simp only [hval1]
  have hws3 : skipWs (',' :: '"' :: 'i' :: 'd' :: '"' :: ':' ::
      (idJsonChars idv ++ ['\x7d'])) =
      ',' :: '"' :: 'i' :: 'd' :: '"' :: ':' :: (idJsonChars idv ++ ['\x7d']) :=
    skipWs_cons _ (by decide)
  simp only [hws3]
  have hkey2 : parseJStringAux
      (('i' :: 'd' :: '"' :: ':' :: (idJsonChars idv ++ ['\x7d'])).length + 1) []
      ('i' :: 'd' :: '"' :: ':' :: (idJsonChars idv ++ ['\x7d'])) =
      some ("id".data, ':' :: (idJsonChars idv ++ ['\x7d'])) :=
    parseJStringAux_escape "id".data _ [] _
      (by simp [List.length_append])
  have hws4 : skipWs ('"' :: 'i' :: 'd' :: '"' :: ':' ::
      (idJsonChars idv ++ ['\x7d'])) =
      '"' :: 'i' :: 'd' :: '"' :: ':' :: (idJsonChars idv ++ ['\x7d']) :=
    skipWs_cons _ (by decide)
  simp only [parseJMembersAux, hws4, hkey2]
  have hws5 : skipWs (':' :: (idJsonChars idv ++ ['\x7d'])) =
      ':' :: (idJsonChars idv ++ ['\x7d']) :=
    skipWs_cons _ (by decide)
  simp only [hws5]
  cases idv with
  | str s =>
    have hval2 : parseJValAux (fuel + 1)
        (idJsonChars (.str s) ++ ['\x7d']) =
        some (.jstr s, ['\x7d']) := by
      rw [show (idJsonChars (.str s) ++ ['\x7d'] : List Char) =
        '"' :: (escapeString s ++ '"' :: ['\x7d']) from by
        simp [idJsonChars, List.append_assoc]]
      exact parseJValAux_str s ['\x7d'] fuel
    simp only [hval2]
    rfl
  | num n =>
    have hval2 : parseJValAux (fuel + 1)
        (idJsonChars (.num n) ++ ['\x7d']) =
        some (.jnum n, ['\x7d']) := by
      rw [show (idJsonChars (.num n) : List Char) = intChars n from rfl]
      exact parseJValAux_num n ['\x7d'] fuel (by decide)
    simp only [hval2]
    rfl

theorem utf8EncodeChar_length_pos (c : Char) : 1 ≤ (utf8EncodeChar c).length := by
  by_cases h1 : c.toNat < 128
  · simp [utf8EncodeChar, h1]
  · by_cases h2 : c.toNat < 2048
    · simp [utf8EncodeChar, h1, h2]
    · by_cases h3 : c.toNat < 65536
      · simp [utf8EncodeChar, h1, h2, h3]
      · simp [utf8EncodeChar, h1, h2, h3]

theorem utf8Encode_length_ge (cs : List Char) :
    cs.length ≤ (utf8Encode cs).length := by
  induction cs with
  | nil => simp [utf8Encode]
  | cons c cs ih =>
    rw [show utf8Encode (c :: cs) = utf8EncodeChar c ++ utf8Encode cs from rfl,
      List.length_append, List.length_cons]
    have := utf8EncodeChar_length_pos c
    omega

theorem parseJson_cursor (c : Cursor) :
    parseJsonChars (cursorJsonChars c) = some (cursorJVal c) := by
  obtain ⟨k, hk⟩ : ∃ k, (cursorJsonChars c).length + 1 = k + 3 + 1 := by
    refine ⟨(cursorJsonChars c).length - 3, ?_⟩
    have h4 : 3 ≤ (cursorJsonChars c).length := by
      unfold cursorJsonChars
      simp [List.length_append]
    omega
  unfold parseJsonChars
  rw [hk]
  have hassoc : cursorJsonChars c =
      '\x7b' :: '"' :: ("created_at".data ++ ('"' :: ':' :: '"' ::
        (escapeString c.created_at ++ ('"' :: ',' :: '"' :: 'i' :: 'd' :: '"' :: ':' ::
          (idJsonChars c.id ++ ['\x7d']))))) := by
    unfold cursorJsonChars
    simp [List.append_assoc]
  have hmain : parseJValAux (k + 3 + 1) (cursorJsonChars c) =
      some (cursorJVal c, []) := by
    rw [hassoc]
    have hstep1 : ∀ X : List Char,
        parseJValAux (k + 3 + 1) ('\x7b' :: '"' :: X) =
        parseJMembersAux (k + 3) [] ('"' :: X) := fun _ => rfl
    rw [hstep1]
    exact parseJMembersAux_cursor c.created_at c.id k
  rw [hmain]
  rfl

/-- C7: decoding the token produced by `encodeCursor` recovers the cursor
exactly, for every cursor whose `created_at` is an arbitrary string and
whose id is a string or an integer. -/
theorem cursor_roundtrip (c : Cursor) :
    parseCursorParam (encodeCursor c) = .ok c := by
  obtain ⟨ca, idv⟩ := c
  unfold parseCursorParam
  have hb : base64DecodeLenient (encodeCursor ⟨ca, idv⟩) =
      utf8Encode (cursorJsonChars ⟨ca, idv⟩) := by
    unfold base64DecodeLenient encodeCursor
    exact base64_roundtrip _ (utf8Encode_lt _)
  rw [hb]
  have hu : utf8DecodeLossy (utf8Encode (cursorJsonChars ⟨ca, idv⟩)) =
      cursorJsonChars ⟨ca, idv⟩ := by
    unfold utf8DecodeLossy
    exact utf8DecodeAux_encode (cursorJsonChars ⟨ca, idv⟩) _ (utf8Encode_length_ge _)
  rw [hu, parseJson_cursor ⟨ca, idv⟩]
  cases idv <;> rfl

/-- C8: for every token, the cursor decoder fails exactly when the token's
base64/UTF-8/JSON decoding fails or the decoded value does not pass the
shape checks (a string `created_at` and a string-or-number `id`); on every
such input no cursor is produced, and `parsePaginationParams` reports the
invalid-cursor error for the request. -/
theorem cursor_decode_failure (token : String) :
    ((∃ msg, parseCursorParam token = .error msg) ↔
      parseJsonChars (utf8DecodeLossy (base64DecodeLenient token)) = none ∨
      ∃ v, parseJsonChars (utf8DecodeLossy (base64DecodeLenient token)) = some v ∧
        cursorOfJVal v = none) ∧
    (∀ msg, parseCursorParam token = .error msg →
      ∀ c, parseCursorParam token ≠ .ok c) ∧
    (∀ sp : SearchParams, sp.limit = none → sp.sort = none →
      sp.cursor = some token → token ≠ "" →
      ∀ msg, parseCursorParam token = .error msg →
        parsePaginationParams sp = .err msg) := by
  refine ⟨?_, ?_, ?_⟩
  · cases hp : parseJsonChars (utf8DecodeLossy (base64DecodeLenient token)) with
    | none =>
      have hval : parseCursorParam token =
          .error "Invalid cursor. Cursor must be a valid base64-encoded JSON string." := by
        unfold parseCursorParam
        rw [hp]
      exact ⟨fun _ => Or.inl rfl, fun _ => ⟨_, hval⟩⟩
    | some v =>
      cases hcv : cursorOfJVal v with
      | none =>
        have hval : parseCursorParam token = .error "Invalid cursor format." := by
          have h1 : parseCursorParam token =
              (match cursorOfJVal v with
               | none => Except.error "Invalid cursor format."
               | some c2 => Except.ok c2) := by
            unfold parseCursorParam
            rw [hp]
          rw [h1, hcv]
        exact ⟨fun _ => Or.inr ⟨v, rfl, hcv⟩, fun _ => ⟨_, hval⟩⟩
      | some c =>
        have hok : parseCursorParam token = .ok c := by
          have h1 : parseCursorParam token =
              (match cursorOfJVal v with
               | none => Except.error "Invalid cursor format."
               | some c2 => Except.ok c2) := by
            unfold parseCursorParam
            rw [hp]
          rw [h1, hcv]
        constructor
        · rintro ⟨msg, hmsg⟩
          rw [hok] at hmsg
          cases hmsg
        · rintro (h | ⟨v', hv', hcv'⟩)
          · cases h
          · have hvv : v' = v := ((Option.some.injEq _ _).mp hv').symm
            rw [hvv, hcv] at hcv'
            cases hcv'
  · intro msg hmsg c hok
    rw [hmsg] at hok
    cases hok
  · intro sp hl hs hc hne msg hmsg
    have ht : truthy (some token) = true := by simp [truthy, hne]
    simp [parsePaginationParams, hl, hs, hc, ht, hmsg, truthy, hne]

theorem cursor_decode_failure_witness :
    parsePaginationParams ⟨none, some "###", none⟩ =
      .err "Invalid cursor. Cursor must be a valid base64-encoded JSON string." :=
  (cursor_decode_failure "###").2.2 ⟨none, some "###", none⟩ rfl rfl rfl
    (by decide) _ (by rfl)

end Ekko
